import Mathlib

/-!
# Verification of the triangular-arbitrage engine core

A shallow embedding, in Lean 4, of the hot-path components of the
`arbitrage-engine` repository (Python), together with theorems settling the
frozen claims C1..C10 about it.

Conventions of the embedding:
* Python `float` values (prices, quantities, fees, token counts) are modelled
  as exact rationals `ℚ`; Python `int` values (timestamps, counters, ids) as
  `ℤ` or `ℕ`.
* Python dictionaries keyed by strings are modelled as association lists with
  overwrite-in-place semantics (`assocSet`), preserving insertion order, as
  CPython dicts do.
* Wall-clock reads (`get_timestamp_us`, `get_timestamp_ms`, `date.today()`)
  are passed in as explicit parameters.
* Exceptions raised by callbacks are modelled with `Except`.
* `asyncio.sleep(w)` suspends for at least `w` seconds; the extra elapsed
  time is an explicit nonnegative parameter `eps`.

Every definition is translated statement-by-statement from the Python source
named in its doc comment, except the two definitions explicitly marked as
spec-side (`maxQtyForwardSpec`, `round_price_spec`, `round_quantity_spec`),
which transcribe sentences of the specification for refinement comparisons.
-/

/-- `OrderSide` from `src/arbitrage/core/types.py`. -/
inductive OrderSide where
  | buy
  | sell
deriving DecidableEq, Repr

/-- `OrderStatus` from `src/arbitrage/core/types.py`
(`PARTIALLY_FILLED` is rendered `partly_filled`). -/
inductive OrderStatus where
  | pending
  | sent
  | filled
  | partly_filled
  | cancelled
  | rejected
  | expired
  | failed
deriving DecidableEq, Repr

/-- `ExecutionStatus` from `src/arbitrage/core/types.py`
(`PARTIAL` is rendered `part_filled`). -/
inductive ExecutionStatus where
  | success
  | part_filled
  | failed
  | recovered
deriving DecidableEq, Repr

/-- `BBO` (best bid/offer) from `src/arbitrage/core/types.py`. -/
structure BBO where
  symbol : String
  bid_price : ℚ
  bid_qty : ℚ
  ask_price : ℚ
  ask_qty : ℚ
  update_id : ℤ
  timestamp_us : ℤ
deriving DecidableEq, Repr

/-- `SymbolInfo` from `src/arbitrage/core/types.py`. -/
structure SymbolInfo where
  symbol : String
  base_asset : String
  quote_asset : String
  price_precision : ℤ
  quantity_precision : ℤ
  min_notional : ℚ
  min_qty : ℚ
  max_qty : ℚ
  step_size : ℚ
  tick_size : ℚ
  status : String
deriving DecidableEq, Repr

/-- `TriangleLeg` from `src/arbitrage/core/types.py`. -/
structure TriangleLeg where
  symbol : String
  side : OrderSide
  from_asset : String
  to_asset : String
deriving DecidableEq, Repr

/-- `TrianglePath` from `src/arbitrage/core/types.py`; the `legs` tuple has
exactly three elements.  The derived `symbols` frozenset is recovered by
`TrianglePath.symbolsList`. -/
structure TrianglePath where
  id : String
  base_asset : String
  legs : TriangleLeg × TriangleLeg × TriangleLeg
deriving DecidableEq, Repr

/-- First leg of a triangle path. -/
def TrianglePath.leg1 (t : TrianglePath) : TriangleLeg := t.legs.1

/-- Second leg of a triangle path. -/
def TrianglePath.leg2 (t : TrianglePath) : TriangleLeg := t.legs.2.1

/-- Third leg of a triangle path. -/
def TrianglePath.leg3 (t : TrianglePath) : TriangleLeg := t.legs.2.2

/-- The symbols of the three legs (the `symbols` frozenset of
`TrianglePath.__post_init__`, as a list). -/
def TrianglePath.symbolsList (t : TrianglePath) : List String :=
  [t.leg1.symbol, t.leg2.symbol, t.leg3.symbol]

/-- `Opportunity` from `src/arbitrage/core/types.py`. -/
structure Opportunity where
  path : TrianglePath
  profit_pct : ℚ
  gross_return : ℚ
  net_return : ℚ
  prices : ℚ × ℚ × ℚ
  quantities : ℚ × ℚ × ℚ
  max_trade_qty : ℚ
  timestamp_us : ℤ
deriving DecidableEq, Repr

/-- `Opportunity.is_profitable` from `src/arbitrage/core/types.py`:
`net_return > 1.0`. -/
def Opportunity.is_profitable (o : Opportunity) : Bool :=
  decide (1 < o.net_return)

/-- `LegResult` from `src/arbitrage/core/types.py`. -/
structure LegResult where
  leg : TriangleLeg
  status : OrderStatus
  order_id : Option String
  filled_qty : ℚ
  filled_price : ℚ
  commission : ℚ
  commission_asset : String
  error_message : String
  latency_us : ℤ
deriving DecidableEq, Repr

/-- `ExecutionResult` from `src/arbitrage/core/types.py`. -/
structure ExecutionResult where
  opportunity : Opportunity
  status : ExecutionStatus
  legs : LegResult × LegResult × LegResult
  total_profit : ℚ
  total_commission : ℚ
  start_timestamp_us : ℤ
  end_timestamp_us : ℤ
  error_message : String
deriving DecidableEq, Repr

/-- Lookup in an association list with string keys (Python `dict.get`). -/
def assocGet {α : Type} : List (String × α) → String → Option α
  | [], _ => none
  | (k, v) :: rest, s => if k = s then some v else assocGet rest s

/-- Overwrite-or-append in an association list with string keys (Python
`d[k] = v`); an existing key keeps its position, as in CPython dicts. -/
def assocSet {α : Type} : List (String × α) → String → α → List (String × α)
  | [], k, v => [(k, v)]
  | (k0, v0) :: rest, k, v =>
    if k0 = k then (k, v) :: rest else (k0, v0) :: assocSet rest k v

/-- Python 3 `round(x)`: round half to even (banker's rounding). -/
def pyRound (x : ℚ) : ℤ :=
  let f := ⌊x⌋
  let r := x - (f : ℚ)
  if r < 1/2 then f
  else if 1/2 < r then f + 1
  else if f % 2 = 0 then f else f + 1

/-- Python 3 `round(x, n)` for a nonnegative digit count `n`: round half to
even at the `n`-th decimal place. -/
def pyRoundTo (x : ℚ) (n : ℤ) : ℚ :=
  (pyRound (x * 10 ^ n) : ℚ) / 10 ^ n

/-- `SymbolInfo.round_price` from `src/arbitrage/core/types.py`:
`round(price / tick_size) * tick_size` when `tick_size > 0`, else
`round(price, price_precision)`. -/
def SymbolInfo.round_price (info : SymbolInfo) (price : ℚ) : ℚ :=
  if info.tick_size ≤ 0 then pyRoundTo price info.price_precision
  else (pyRound (price / info.tick_size) : ℚ) * info.tick_size

/-- `SymbolInfo.round_quantity` from `src/arbitrage/core/types.py`:
`round(qty / step_size) * step_size` when `step_size > 0`, else
`round(qty, quantity_precision)`. -/
def SymbolInfo.round_quantity (info : SymbolInfo) (qty : ℚ) : ℚ :=
  if info.step_size ≤ 0 then pyRoundTo qty info.quantity_precision
  else (pyRound (qty / info.step_size) : ℚ) * info.step_size

/-- Spec-side definition for claim C5, transcribing the spec sentence
"`round_price(p) = round(p/tick)·tick`" with `round` read as mathematical
round-to-nearest (`round` of Mathlib, half away from zero upward). -/
def round_price_spec (info : SymbolInfo) (price : ℚ) : ℚ :=
  (round (price / info.tick_size) : ℚ) * info.tick_size

/-- Spec-side definition for claim C5, transcribing the spec sentence
"`round_quantity(q) = floor(q/step)·step`". -/
def round_quantity_spec (info : SymbolInfo) (qty : ℚ) : ℚ :=
  (⌊qty / info.step_size⌋ : ℚ) * info.step_size

/-- The BBO cache of `OrderbookManager` (`self._cache`), a dict
symbol → BBO. -/
abbrev Orderbook := List (String × BBO)

/-- `OrderbookManager.get` from `src/arbitrage/market/orderbook.py`. -/
def obGet (ob : Orderbook) (symbol : String) : Option BBO :=
  assocGet ob symbol

/-- `OrderbookManager.has_all_symbols` from
`src/arbitrage/market/orderbook.py`, specialised to a triangle's three
symbols. -/
def has_all_symbols (ob : Orderbook) (t : TrianglePath) : Bool :=
  (obGet ob t.leg1.symbol).isSome && (obGet ob t.leg2.symbol).isSome &&
    (obGet ob t.leg3.symbol).isSome

/-- An update callback of `OrderbookManager`: it acts on an external world of
type `ω` and may raise (`Except.error`). -/
abbrev UpdateCallback (ω : Type) := BBO → ω → Except Unit ω

/-- `OrderbookManager` from `src/arbitrage/market/orderbook.py`:
`_cache`, `_callbacks`, `_update_count`. -/
structure OrderbookManager (ω : Type) where
  cache : Orderbook
  callbacks : List (UpdateCallback ω)
  update_count : ℕ

/-- The callback loop of `OrderbookManager.update`
(`for callback in self._callbacks: callback(bbo)`), with no exception
handling: the first raising callback aborts the loop. -/
def run_callbacks {ω : Type} : List (UpdateCallback ω) → BBO → ω → Except Unit ω
  | [], _, w => .ok w
  | cb :: rest, bbo, w =>
    match cb bbo w with
    | .ok w1 => run_callbacks rest bbo w1
    | .error e => .error e

/-- `OrderbookManager.update` from `src/arbitrage/market/orderbook.py`:
overwrite the cache entry, increment `_update_count`, then invoke the
callbacks in registration order.  The second component is the outcome of the
callback loop; `Except.error` means an exception escaped `update`. -/
def OrderbookManager.update {ω : Type} (m : OrderbookManager ω) (bbo : BBO)
    (w : ω) : OrderbookManager ω × Except Unit ω :=
  ({ m with
      cache := assocSet m.cache bbo.symbol bbo
      update_count := m.update_count + 1 },
    run_callbacks m.callbacks bbo w)

/-- `ArbitrageCalculator` from `src/arbitrage/strategy/calculator.py`
(`_fee_multiplier` is recomputed from `fee_rate` by
`ArbitrageCalculator.fee_multiplier`). -/
structure ArbitrageCalculator where
  fee_rate : ℚ
  slippage_buffer : ℚ
deriving DecidableEq, Repr

/-- The pre-computed `_fee_multiplier = (1.0 - fee_rate) ** 3`. -/
def ArbitrageCalculator.fee_multiplier (c : ArbitrageCalculator) : ℚ :=
  (1 - c.fee_rate) ^ 3

/-- One leg of `_calculate_gross_return`: `result /= price` on a BUY,
`result *= price` on a SELL. -/
def legStep (r : ℚ) (side : OrderSide) (p : ℚ) : ℚ :=
  if side = .buy then r / p else r * p

/-- `ArbitrageCalculator._calculate_gross_return` from
`src/arbitrage/strategy/calculator.py`: starting from `1.0`, fold the three
legs. -/
def ArbitrageCalculator.calculate_gross_return (side1 : OrderSide) (price1 : ℚ)
    (side2 : OrderSide) (price2 : ℚ) (side3 : OrderSide) (price3 : ℚ) : ℚ :=
  legStep (legStep (legStep 1 side1 price1) side2 price2) side3 price3

/-- `ArbitrageCalculator._calculate_max_quantity` from
`src/arbitrage/strategy/calculator.py`, verbatim:
`max_from_leg1 = qty1 * price1 if side1 == BUY else qty1 * price1` (both
branches identical in the source), `max_from_leg2 = qty2 * price2 * price1`,
`max_from_leg3 = qty3 * price3 if side3 == SELL else qty3`. -/
def ArbitrageCalculator.calculate_max_quantity (side1 : OrderSide) (price1 qty1 : ℚ)
    (_side2 : OrderSide) (price2 qty2 : ℚ)
    (side3 : OrderSide) (price3 qty3 : ℚ) : ℚ :=
  let max_from_leg1 := if side1 = .buy then qty1 * price1 else qty1 * price1
  let max_from_leg2 := qty2 * price2 * price1
  let max_from_leg3 := if side3 = .sell then qty3 * price3 else qty3
  min (min max_from_leg1 max_from_leg2) max_from_leg3

/-- `ArbitrageCalculator.calculate_opportunity` from
`src/arbitrage/strategy/calculator.py`.  `timestamp` stands for the
`get_timestamp_us()` read at entry. -/
def ArbitrageCalculator.calculate_opportunity (c : ArbitrageCalculator)
    (path : TrianglePath) (orderbook : Orderbook) (timestamp : ℤ) :
    Option Opportunity :=
  match obGet orderbook path.leg1.symbol, obGet orderbook path.leg2.symbol,
      obGet orderbook path.leg3.symbol with
  | some bbo1, some bbo2, some bbo3 =>
    let price1 := if path.leg1.side = .buy then bbo1.ask_price else bbo1.bid_price
    let price2 := if path.leg2.side = .buy then bbo2.ask_price else bbo2.bid_price
    let price3 := if path.leg3.side = .buy then bbo3.ask_price else bbo3.bid_price
    if price1 ≤ 0 ∨ price2 ≤ 0 ∨ price3 ≤ 0 then none
    else
      let gross_return := ArbitrageCalculator.calculate_gross_return
        path.leg1.side price1 path.leg2.side price2 path.leg3.side price3
      let net_return := gross_return * c.fee_multiplier
      let profit_pct := (net_return - 1) * 100
      let qty1 := if path.leg1.side = .buy then bbo1.ask_qty else bbo1.bid_qty
      let qty2 := if path.leg2.side = .buy then bbo2.ask_qty else bbo2.bid_qty
      let qty3 := if path.leg3.side = .buy then bbo3.ask_qty else bbo3.bid_qty
      let max_trade_qty := ArbitrageCalculator.calculate_max_quantity
        path.leg1.side price1 qty1 path.leg2.side price2 qty2
        path.leg3.side price3 qty3
      some {
        path := path
        profit_pct := profit_pct
        gross_return := gross_return
        net_return := net_return
        prices := (price1, price2, price3)
        quantities := (qty1, qty2, qty3)
        max_trade_qty := max_trade_qty
        timestamp_us := timestamp }
  | _, _, _ => none

/-- Spec-side definition for claim C2, transcribing the spec sentence
"Max trade quantity is the minimum of per-leg available quantities converted
into base-currency units via the same composition": with `r_i` the forward
composition prefix after leg `i` (the amount of leg-output asset per starting
base unit), a leg's quantity is denominated in its symbol's base asset
(the output asset of a BUY, the input asset of a SELL), so its capacity in
starting-base units is `qty_i / r_i` for a BUY and `qty_i / r_(i-1)` for a
SELL. -/
def maxQtyForwardSpec (side1 : OrderSide) (price1 qty1 : ℚ)
    (side2 : OrderSide) (price2 qty2 : ℚ)
    (side3 : OrderSide) (price3 qty3 : ℚ) : ℚ :=
  let r1 := legStep 1 side1 price1
  let r2 := legStep r1 side2 price2
  let r3 := legStep r2 side3 price3
  let cap1 := if side1 = .buy then qty1 / r1 else qty1
  let cap2 := if side2 = .buy then qty2 / r2 else qty2 / r1
  let cap3 := if side3 = .buy then qty3 / r3 else qty3 / r2
  min (min cap1 cap2) cap3

/-- `TokenBucket` from `src/arbitrage/exchange/rate_limiter.py`.  Time is
measured in milliseconds (`get_timestamp_ms`), kept rational for exactness. -/
structure TokenBucket where
  capacity : ℤ
  refill_rate : ℚ
  tokens : ℚ
  last_refill : ℚ
deriving DecidableEq, Repr

/-- `TokenBucket._refill`: add `elapsed_seconds * refill_rate` tokens, capped
at `capacity`; `now` is the `get_timestamp_ms()` read. -/
def TokenBucket.refill (b : TokenBucket) (now : ℚ) : TokenBucket :=
  { b with
      tokens := min (b.capacity : ℚ) (b.tokens + (now - b.last_refill) / 1000 * b.refill_rate)
      last_refill := now }

/-- `TokenBucket.acquire` from `src/arbitrage/exchange/rate_limiter.py`:
refill; if enough tokens, consume; otherwise sleep
`(tokens_needed / refill_rate)` seconds, refill again and consume
unconditionally.  `now` is the clock at entry; `eps ≥ 0` is the extra time
the sleep overshoots. -/
def TokenBucket.acquire (b : TokenBucket) (n : ℕ) (now eps : ℚ) : TokenBucket :=
  let b1 := b.refill now
  if (n : ℚ) ≤ b1.tokens then { b1 with tokens := b1.tokens - n }
  else
    let wait_seconds := ((n : ℚ) - b1.tokens) / b1.refill_rate
    let b2 := b1.refill (now + (wait_seconds + eps) * 1000)
    { b2 with tokens := b2.tokens - n }

/-- `TokenBucket.try_acquire` from `src/arbitrage/exchange/rate_limiter.py`:
refill, then consume only if enough tokens are available. -/
def TokenBucket.try_acquire (b : TokenBucket) (n : ℕ) (now : ℚ) :
    TokenBucket × Bool :=
  let b1 := b.refill now
  if (n : ℚ) ≤ b1.tokens then ({ b1 with tokens := b1.tokens - n }, true)
  else (b1, false)

/-- The token-bucket invariant of the claim: `0 ≤ tokens ≤ capacity`. -/
def TokenBucket.Inv (b : TokenBucket) : Prop :=
  0 ≤ b.tokens ∧ b.tokens ≤ (b.capacity : ℚ)

/-- One directed edge of the `TriangleDiscovery` graph
(`src/arbitrage/strategy/graph.py`): endpoints plus the `symbol`/`side` edge
attributes. -/
structure GraphEdge where
  src : String
  dst : String
  symbol : String
  side : OrderSide
deriving DecidableEq, Repr

/-- `nx.DiGraph.add_edge(u, v, symbol=sym, side=sd)`: overwrite the
attributes if the edge exists (keeping its position), else append. -/
def addEdge : List GraphEdge → String → String → String → OrderSide → List GraphEdge
  | [], u, v, sym, sd => [⟨u, v, sym, sd⟩]
  | e :: es, u, v, sym, sd =>
    if e.src = u ∧ e.dst = v then ⟨u, v, sym, sd⟩ :: es
    else e :: addEdge es u v sym sd

/-- Edge lookup `self._graph.edges[u, v]` / `has_edge`. -/
def getEdge : List GraphEdge → String → String → Option GraphEdge
  | [], _, _ => none
  | e :: es, u, v => if e.src = u ∧ e.dst = v then some e else getEdge es u v

/-- `self._graph.neighbors(u)`: successors of `u` in insertion order. -/
def neighbors : List GraphEdge → String → List String
  | [], _ => []
  | e :: es, u => if e.src = u then e.dst :: neighbors es u else neighbors es u

/-- `asset in self._graph`: membership among the endpoints. -/
def hasNode : List GraphEdge → String → Bool
  | [], _ => false
  | e :: es, a => if e.src = a ∨ e.dst = a then true else hasNode es a

/-- `TriangleDiscovery.build_graph` body, folded over the symbol entries
`(symbol, base_asset, quote_asset)` of `symbol_manager.get_all()` (a dict,
hence in insertion order with unique symbol keys): for each pair add the
edge `quote → base` (BUY) and the edge `base → quote` (SELL). -/
def build_graph_aux : List GraphEdge → List (String × String × String) → List GraphEdge
  | g, [] => g
  | g, (sym, base, quote) :: rest =>
    build_graph_aux (addEdge (addEdge g quote base sym .buy) base quote sym .sell) rest

/-- `TriangleDiscovery.build_graph` from `src/arbitrage/strategy/graph.py`. -/
def build_graph (infos : List (String × String × String)) : List GraphEdge :=
  build_graph_aux [] infos

/-- `TriangleDiscovery._build_triangle` from
`src/arbitrage/strategy/graph.py`: read the three edges (a missing edge is
the `KeyError` branch, returning `None`) and assemble the legs and id. -/
def build_triangle (g : List GraphEdge) (base mid1 mid2 : String) :
    Option TrianglePath :=
  match getEdge g base mid1, getEdge g mid1 mid2, getEdge g mid2 base with
  | some edge1, some edge2, some edge3 =>
    some {
      id := base ++ "-" ++ mid1 ++ "-" ++ mid2
      base_asset := base
      legs :=
        (⟨edge1.symbol, edge1.side, base, mid1⟩,
         ⟨edge2.symbol, edge2.side, mid1, mid2⟩,
         ⟨edge3.symbol, edge3.side, mid2, base⟩) }
  | _, _, _ => none

/-- Membership test of `frozenset([first_hop, second_hop])` in the
`seen_paths` set (unordered pair equality). -/
def seenHas : List (String × String) → String → String → Bool
  | [], _, _ => false
  | (a, b) :: rest, x, y =>
    if (a = x ∧ b = y) ∨ (a = y ∧ b = x) then true else seenHas rest x y

/-- The inner loop of `TriangleDiscovery.find_triangles` (over
`second_hop ∈ neighbors(first_hop)`), carrying the accumulated triangle list
and seen-pair set; returns early (the `break`) once `max_triangles` is
reached. -/
def find_triangles_inner (g : List GraphEdge) (base : String) (maxT : ℕ)
    (fh : String) :
    List String → List TrianglePath → List (String × String) →
    List TrianglePath × List (String × String)
  | [], acc, seen => (acc, seen)
  | sh :: rest, acc, seen =>
    if sh = base ∨ sh = fh then find_triangles_inner g base maxT fh rest acc seen
    else if (getEdge g sh base).isNone then
      find_triangles_inner g base maxT fh rest acc seen
    else if seenHas seen fh sh then find_triangles_inner g base maxT fh rest acc seen
    else
      match build_triangle g base fh sh with
      | some t =>
        if maxT ≤ acc.length + 1 then (acc ++ [t], (fh, sh) :: seen)
        else find_triangles_inner g base maxT fh rest (acc ++ [t]) ((fh, sh) :: seen)
      | none => find_triangles_inner g base maxT fh rest acc ((fh, sh) :: seen)

/-- The outer loop of `TriangleDiscovery.find_triangles` (over
`first_hop ∈ neighbors(base)`), with its `break` once `max_triangles` is
reached. -/
def find_triangles_outer (g : List GraphEdge) (base : String) (maxT : ℕ) :
    List String → List TrianglePath → List (String × String) → List TrianglePath
  | [], acc, _ => acc
  | fh :: rest, acc, seen =>
    if fh = base then find_triangles_outer g base maxT rest acc seen
    else
      let p := find_triangles_inner g base maxT fh (neighbors g fh) acc seen
      if maxT ≤ p.1.length then p.1
      else find_triangles_outer g base maxT rest p.1 p.2

/-- `TriangleDiscovery.find_triangles` from
`src/arbitrage/strategy/graph.py`. -/
def find_triangles (g : List GraphEdge) (base : String) (maxT : ℕ) :
    List TrianglePath :=
  if hasNode g base then find_triangles_outer g base maxT (neighbors g base) [] []
  else []

/-- The well-formedness property claim C7 states for every discovered
triangle: the legs chain through the cycle, start and end at the base asset,
and carry pairwise distinct symbols. -/
def GoodTriangle (base : String) (t : TrianglePath) : Prop :=
  t.leg1.from_asset = base ∧
  t.leg1.to_asset = t.leg2.from_asset ∧
  t.leg2.to_asset = t.leg3.from_asset ∧
  t.leg3.to_asset = t.leg1.from_asset ∧
  t.leg3.to_asset = base ∧
  t.leg1.symbol ≠ t.leg2.symbol ∧
  t.leg1.symbol ≠ t.leg3.symbol ∧
  t.leg2.symbol ≠ t.leg3.symbol

/-- `OpportunityDetector._cooldown_us = 100_000` from
`src/arbitrage/strategy/opportunity.py`. -/
def COOLDOWN_US : ℤ := 100000

/-- The configuration of `OpportunityDetector`
(`src/arbitrage/strategy/opportunity.py`): calculator, triangle catalog,
`_min_profit_threshold`, `_max_opportunities`. -/
structure OpportunityDetectorCfg where
  calculator : ArbitrageCalculator
  triangles : List TrianglePath
  min_profit_threshold : ℚ
  max_opportunities : ℕ

/-- `self._triangles_by_symbol.get(symbol, [])`: the index built by
`_build_symbol_index` lists, in catalog order, the triangles containing the
symbol. -/
def triangles_for_symbol : List TrianglePath → String → List TrianglePath
  | [], _ => []
  | t :: rest, sym =>
    if sym ∈ t.symbolsList then t :: triangles_for_symbol rest sym
    else triangles_for_symbol rest sym

/-- The triangle loop of `OpportunityDetector.on_price_update`: cooldown
check against `_last_opportunity_time`, `has_all_symbols` check, calculator
call, threshold check, emission (recording the emission time) and the
`break` at `_max_opportunities`. -/
def scan_triangles (cfg : OpportunityDetectorCfg) (ob : Orderbook) (ts : ℤ) :
    List TrianglePath → List Opportunity → List (String × ℤ) →
    List Opportunity × List (String × ℤ)
  | [], opps, le => (opps, le)
  | t :: rest, opps, le =>
    let last := (assocGet le t.id).getD 0
    if ts - last < COOLDOWN_US then scan_triangles cfg ob ts rest opps le
    else if ¬ has_all_symbols ob t then scan_triangles cfg ob ts rest opps le
    else
      match cfg.calculator.calculate_opportunity t ob ts with
      | some opp =>
        if cfg.min_profit_threshold * 100 ≤ opp.profit_pct then
          if cfg.max_opportunities ≤ opps.length + 1 then
            (opps ++ [opp], assocSet le t.id ts)
          else scan_triangles cfg ob ts rest (opps ++ [opp]) (assocSet le t.id ts)
        else scan_triangles cfg ob ts rest opps le
      | none => scan_triangles cfg ob ts rest opps le

/-- Stable insertion into a list sorted by descending `profit_pct`. -/
def insertDesc (o : Opportunity) : List Opportunity → List Opportunity
  | [] => [o]
  | x :: xs => if x.profit_pct < o.profit_pct then o :: x :: xs else x :: insertDesc o xs

/-- `opportunities.sort(key=lambda x: x.profit_pct, reverse=True)`: stable
sort by descending profit. -/
def sortDesc : List Opportunity → List Opportunity
  | [] => []
  | x :: xs => insertDesc x (sortDesc xs)

/-- `OpportunityDetector.on_price_update` from
`src/arbitrage/strategy/opportunity.py`; `le` is the mutable
`_last_opportunity_time` map and `ts` the `get_timestamp_us()` read.
Returns the emitted opportunities (sorted by descending profit) and the
updated map. -/
def on_price_update (cfg : OpportunityDetectorCfg) (ob : Orderbook)
    (le : List (String × ℤ)) (sym : String) (ts : ℤ) :
    List Opportunity × List (String × ℤ) :=
  let tris := triangles_for_symbol cfg.triangles sym
  if tris.isEmpty then ([], le)
  else
    let p := scan_triangles cfg ob ts tris [] le
    (sortDesc p.1, p.2)

/-- `RiskLimits` from `src/arbitrage/execution/risk.py`. -/
structure RiskLimits where
  max_position_pct : ℚ
  max_trade_size : ℚ
  min_trade_size : ℚ
  daily_loss_limit : ℚ
  max_daily_trades : ℤ
  max_concurrent_positions : ℤ
  min_time_between_trades_ms : ℤ
  max_hold_time_ms : ℤ
deriving DecidableEq, Repr

/-- The default `RiskLimits()` values of the source. -/
def RiskLimits.defaults : RiskLimits :=
  { max_position_pct := 1/5
    max_trade_size := 1000
    min_trade_size := 10
    daily_loss_limit := 50
    max_daily_trades := 1000
    max_concurrent_positions := 1
    min_time_between_trades_ms := 100
    max_hold_time_ms := 5000 }

/-- `RiskState` from `src/arbitrage/execution/risk.py`; the calendar date is
modelled as an integer day number. -/
structure RiskState where
  daily_pnl : ℚ
  daily_trades : ℤ
  open_positions : ℤ
  last_trade_time_ms : ℤ
  current_date : ℤ
  is_halted : Bool
  halt_reason : String
deriving DecidableEq, Repr

/-- A fresh `RiskState()` created on day `today`. -/
def RiskState.init (today : ℤ) : RiskState :=
  { daily_pnl := 0
    daily_trades := 0
    open_positions := 0
    last_trade_time_ms := 0
    current_date := today
    is_halted := false
    halt_reason := "" }

/-- `RiskState.reset_daily` from `src/arbitrage/execution/risk.py`: zero the
daily counters, set `current_date`, and lift a halt whose reason starts with
"Daily". -/
def RiskState.reset_daily (st : RiskState) (today : ℤ) : RiskState :=
  { st with
      daily_pnl := 0
      daily_trades := 0
      current_date := today
      is_halted := if st.halt_reason.startsWith "Daily" then false else st.is_halted
      halt_reason := if st.halt_reason.startsWith "Daily" then "" else st.halt_reason }

/-- `RiskManager._halt`. -/
def riskHalt (st : RiskState) (reason : String) : RiskState :=
  { st with is_halted := true, halt_reason := reason }

/-- `RiskCheckResult` from `src/arbitrage/execution/risk.py`. -/
structure RiskCheckResult where
  passed : Bool
  reason : String
  adjusted_size : Option ℚ
deriving DecidableEq, Repr

/-- `RiskManager._validate_trade_size` from
`src/arbitrage/execution/risk.py`. -/
def validate_trade_size (limits : RiskLimits) (balance : ℚ) (size : ℚ) :
    Option ℚ :=
  if size < limits.min_trade_size then none
  else
    let max_by_pct := balance * limits.max_position_pct
    let max_size := min limits.max_trade_size max_by_pct
    let size1 := if max_size < size then max_size else size
    if size1 < limits.min_trade_size then none else some size1

/-- `RiskManager.check_trade` from `src/arbitrage/execution/risk.py`.
`today` stands for `date.today()` and `now_ms` for `get_timestamp_ms()`.
Returns the check result together with the (possibly mutated) state: the
daily reset and the loss-limit auto-halt are state mutations performed by
the check itself. -/
def check_trade (limits : RiskLimits) (balance : ℚ) (st0 : RiskState)
    (opp : Opportunity) (trade_size : ℚ) (today now_ms : ℤ) :
    RiskCheckResult × RiskState :=
  let st := if today ≠ st0.current_date then st0.reset_daily today else st0
  if st.is_halted then
    (⟨false, "Trading halted: " ++ st.halt_reason, none⟩, st)
  else if st.daily_pnl ≤ -limits.daily_loss_limit then
    (⟨false, "Daily loss limit reached", none⟩, riskHalt st "Daily loss limit reached")
  else if limits.max_daily_trades ≤ st.daily_trades then
    (⟨false, "Daily trade limit reached", none⟩, st)
  else if limits.max_concurrent_positions ≤ st.open_positions then
    (⟨false, "Max concurrent positions reached", none⟩, st)
  else if now_ms - st.last_trade_time_ms < limits.min_time_between_trades_ms then
    (⟨false, "Cooldown: " ++
        toString (limits.min_time_between_trades_ms - (now_ms - st.last_trade_time_ms)) ++
        "ms remaining", none⟩, st)
  else
    match validate_trade_size limits balance trade_size with
    | none => (⟨false, "Trade size outside limits", none⟩, st)
    | some adjusted_size =>
      if adjusted_size * (opp.net_return - 1) < 0 then
        (⟨false, "Negative expected profit", none⟩, st)
      else (⟨true, "", some adjusted_size⟩, st)

/-- `RiskManager.record_trade_start`. -/
def record_trade_start (st : RiskState) (now_ms : ℤ) : RiskState :=
  { st with open_positions := st.open_positions + 1, last_trade_time_ms := now_ms }

/-- `RiskManager.record_trade_complete` from
`src/arbitrage/execution/risk.py`: decrement open positions (floored at 0),
bump the trade count, add the pnl, and auto-halt on a daily-loss breach. -/
def record_trade_complete (limits : RiskLimits) (st0 : RiskState) (pnl : ℚ) :
    RiskState :=
  let st := { st0 with
      open_positions := max 0 (st0.open_positions - 1)
      daily_trades := st0.daily_trades + 1
      daily_pnl := st0.daily_pnl + pnl }
  if st.daily_pnl ≤ -limits.daily_loss_limit then
    riskHalt st "Daily loss limit reached"
  else st

/-- `RiskManager.record_trade_failed`. -/
def record_trade_failed (st : RiskState) : RiskState :=
  { st with open_positions := max 0 (st.open_positions - 1) }

/-- `ExecutorConfig` from `src/arbitrage/execution/executor.py`. -/
structure ExecutorConfig where
  use_market_orders : Bool
  slippage_buffer : ℚ
  order_timeout_ms : ℤ
  dry_run : Bool
deriving DecidableEq, Repr

/-- A call to the exchange transport (`BinanceClient.place_market_order` /
`place_limit_order`); the dry-run path must make none. -/
inductive TransportCall where
  | market (symbol : String) (side : OrderSide) (quantity : ℚ)
  | limit_order (symbol : String) (side : OrderSide) (quantity price : ℚ)
deriving DecidableEq, Repr

/-- `TriangleExecutor._calculate_leg_quantities` from
`src/arbitrage/execution/executor.py`. -/
def calculate_leg_quantities (opp : Opportunity) (trade_size : ℚ) :
    ℚ × ℚ × ℚ :=
  let qty1 := if opp.path.leg1.side = .buy then trade_size / opp.prices.1 else trade_size
  let qty2 := if opp.path.leg2.side = .buy then qty1 / opp.prices.2.1 else qty1 * opp.prices.2.1
  let qty3 := if opp.path.leg3.side = .sell then qty2 * opp.prices.2.2 else qty2 / opp.prices.2.2
  (qty1, qty2, qty3)

/-- One simulated leg of `TriangleExecutor._execute_dry_run`: FILLED at the
quoted price, with synthetic commission `qty * price * 0.001` (the hardcoded
"0.1% fee" of the source) and a synthetic 500 microsecond latency. -/
def dry_leg_result (i : ℕ) (start_time : ℤ) (leg : TriangleLeg) (qty price : ℚ) :
    LegResult :=
  { leg := leg
    status := .filled
    order_id := some ("DRY_" ++ toString i ++ "_" ++ toString start_time)
    filled_qty := qty
    filled_price := price
    commission := qty * price * (1/1000)
    commission_asset := "BNB"
    error_message := ""
    latency_us := 500 }

/-- `TriangleExecutor._execute_dry_run` from
`src/arbitrage/execution/executor.py`; `end_time` stands for the
`get_timestamp_us()` read after the simulated delay. -/
def execute_dry_run (opp : Opportunity) (trade_size : ℚ)
    (start_time end_time : ℤ) : ExecutionResult :=
  let quantities := calculate_leg_quantities opp trade_size
  let leg1 := dry_leg_result 0 start_time opp.path.leg1 quantities.1 opp.prices.1
  let leg2 := dry_leg_result 1 start_time opp.path.leg2 quantities.2.1 opp.prices.2.1
  let leg3 := dry_leg_result 2 start_time opp.path.leg3 quantities.2.2 opp.prices.2.2
  { opportunity := opp
    status := .success
    legs := (leg1, leg2, leg3)
    total_profit := trade_size * (opp.net_return - 1)
    total_commission := leg1.commission + leg2.commission + leg3.commission
    start_timestamp_us := start_time
    end_timestamp_us := end_time
    error_message := "" }

/-- `TriangleExecutor._create_failed_result`. -/
def create_failed_result (opp : Opportunity) (error : String)
    (start_time end_time : ℤ) : ExecutionResult :=
  let mk := fun (leg : TriangleLeg) =>
    ({ leg := leg, status := .failed, order_id := none, filled_qty := 0,
       filled_price := 0, commission := 0, commission_asset := "",
       error_message := error, latency_us := 0 } : LegResult)
  { opportunity := opp
    status := .failed
    legs := (mk opp.path.leg1, mk opp.path.leg2, mk opp.path.leg3)
    total_profit := 0
    total_commission := 0
    start_timestamp_us := start_time
    end_timestamp_us := end_time
    error_message := error }

/-- `TriangleExecutor.execute` from `src/arbitrage/execution/executor.py`,
for a configuration with `dry_run = True` (the only branch claim C6
concerns; the live branch, which contacts the transport, is not embedded):
risk gate, adjusted size (Python truthiness: `if risk_check.adjusted_size:`
keeps the original size when the adjusted size is `None` or `0.0`),
`record_trade_start`, the dry-run simulation, and `record_trade_complete` /
`record_trade_failed` according to the result status.  The third component
lists the transport calls made. -/
def execute_dry (limits : RiskLimits) (balance : ℚ) (st : RiskState)
    (opp : Opportunity) (today now_ms start_time end_time : ℤ) :
    ExecutionResult × RiskState × List TransportCall :=
  let trade_size0 := opp.max_trade_qty
  let rc := check_trade limits balance st opp trade_size0 today now_ms
  if rc.1.passed = false then
    (create_failed_result opp ("Risk check failed: " ++ rc.1.reason) start_time end_time,
      rc.2, [])
  else
    let trade_size :=
      match rc.1.adjusted_size with
      | some a => if a ≠ 0 then a else trade_size0
      | none => trade_size0
    let st2 := record_trade_start rc.2 now_ms
    let result := execute_dry_run opp trade_size start_time end_time
    let st3 :=
      if result.status = .success then record_trade_complete limits st2 result.total_profit
      else record_trade_failed st2
    (result, st3, [])

/-- The S1 scenario BBO for BTCUSDT: bid 49990, ask 50000, quantities 1. -/
def bboBTCUSDT : BBO :=
  { symbol := "BTCUSDT", bid_price := 49990, bid_qty := 1, ask_price := 50000,
    ask_qty := 1, update_id := 1, timestamp_us := 0 }

/-- The S1 scenario BBO for ETHBTC: bid 0.0589, ask 0.059, quantities 50. -/
def bboETHBTC : BBO :=
  { symbol := "ETHBTC", bid_price := 589/10000, bid_qty := 50, ask_price := 59/1000,
    ask_qty := 50, update_id := 1, timestamp_us := 0 }

/-- The S1 scenario BBO for ETHUSDT: bid 3000, ask 3001, quantities 10. -/
def bboETHUSDT : BBO :=
  { symbol := "ETHUSDT", bid_price := 3000, bid_qty := 10, ask_price := 3001,
    ask_qty := 10, update_id := 1, timestamp_us := 0 }

/-- The S1 orderbook cache holding the three BBOs. -/
def obS1 : Orderbook :=
  [("BTCUSDT", bboBTCUSDT), ("ETHBTC", bboETHBTC), ("ETHUSDT", bboETHUSDT)]

/-- The S1 triangle USDT → BTC → ETH → USDT: BUY BTCUSDT, BUY ETHBTC,
SELL ETHUSDT. -/
def pathS1 : TrianglePath :=
  { id := "USDT-BTC-ETH"
    base_asset := "USDT"
    legs :=
      (⟨"BTCUSDT", .buy, "USDT", "BTC"⟩,
       ⟨"ETHBTC", .buy, "BTC", "ETH"⟩,
       ⟨"ETHUSDT", .sell, "ETH", "USDT"⟩) }

/-- The S1 calculator: `fee_rate = 0.001`, default slippage buffer. -/
def calcS1 : ArbitrageCalculator :=
  { fee_rate := 1/1000, slippage_buffer := 1/10000 }

/-- The S1/S5 detector configuration: the S1 triangle, default threshold
`0.0005` and default `max_opportunities_per_scan = 10`. -/
def cfgS1 : OpportunityDetectorCfg :=
  { calculator := calcS1, triangles := [pathS1], min_profit_threshold := 1/2000,
    max_opportunities := 10 }

/-- The three-pair symbol table generating the S1 triangle. -/
def infosS1 : List (String × String × String) :=
  [("BTCUSDT", "BTC", "USDT"), ("ETHBTC", "ETH", "BTC"), ("ETHUSDT", "ETH", "USDT")]

/-- A full token bucket with capacity 2 and refill rate 1 token/s. -/
def bucketEx : TokenBucket :=
  { capacity := 2, refill_rate := 1, tokens := 2, last_refill := 0 }

/-- A symbol with `tick_size = step_size = 1` (and zero precisions), used to
compare the rounding helpers against the spec's formulas. -/
def infoEx : SymbolInfo :=
  { symbol := "XY", base_asset := "X", quote_asset := "Y", price_precision := 0,
    quantity_precision := 0, min_notional := 0, min_qty := 0, max_qty := 0,
    step_size := 1, tick_size := 1, status := "TRADING" }

/-- A callback that raises on any update (`ω = ℕ`). -/
def cbRaises : UpdateCallback ℕ := fun _ _ => .error ()

/-- A callback that counts the updates it observes (`ω = ℕ`). -/
def cbCounts : UpdateCallback ℕ := fun _ n => .ok (n + 1)

/-- An orderbook manager whose first callback raises and whose second one
counts: the counterexample instance for claim C4. -/
def mgrEx : OrderbookManager ℕ :=
  { cache := [], callbacks := [cbRaises, cbCounts], update_count := 0 }

/-- Provenance of a graph edge: it was generated by `build_graph` from some
symbol entry `(symbol, b, q)`, either as the BUY edge `q → b` or as the SELL
edge `b → q`. -/
def EdgeFromInfos (infos : List (String × String × String)) (e : GraphEdge) : Prop :=
  ∃ b q, (e.symbol, b, q) ∈ infos ∧
    ((e.src = q ∧ e.dst = b) ∨ (e.src = b ∧ e.dst = q))

/-- An opportunity for the executor scenarios: the S1 triangle shape with
round numbers (`net_return = 2`, prices 100, 2, 50, `max_trade_qty = 5000`). -/
def oppEx : Opportunity :=
  { path := pathS1
    profit_pct := 100
    gross_return := 2006018054162487/1000000000000000
    net_return := 2
    prices := (100, 2, 50)
    quantities := (10, 10, 10)
    max_trade_qty := 5000
    timestamp_us := 0 }

/-!
## Helper lemmas
-/

theorem sell_ne_buy : OrderSide.sell ≠ OrderSide.buy := by decide

theorem buy_ne_sell : OrderSide.buy ≠ OrderSide.sell := by decide

/-- Reading an association list after an overwrite. -/
theorem assocGet_assocSet {α : Type} (l : List (String × α)) (k k1 : String) (v : α) :
    assocGet (assocSet l k v) k1 = if k = k1 then some v else assocGet l k1 := by
  induction l with
  | nil => simp [assocGet, assocSet]
  | cons hd tl ih =>
    obtain ⟨k0, v0⟩ := hd
    by_cases h0 : k0 = k
    · subst h0
      simp only [assocSet, if_pos rfl, assocGet]
      by_cases h1 : k0 = k1 <;> simp [h1]
    · simp only [assocSet, if_neg h0, assocGet]
      by_cases h1 : k0 = k1
      · subst h1
        have hne : ¬ k = k0 := fun h => h0 h.symm
        simp [hne]
      · simp [h1, ih]

/-- `calculate_opportunity` always returns an opportunity carrying the path
it was asked about. -/
theorem calculate_opportunity_path {c : ArbitrageCalculator} {t : TrianglePath}
    {ob : Orderbook} {ts : ℤ} {opp : Opportunity}
    (h : c.calculate_opportunity t ob ts = some opp) : opp.path = t := by
  unfold ArbitrageCalculator.calculate_opportunity at h
  cases hb1 : obGet ob t.leg1.symbol with
  | none => rw [hb1] at h; exact absurd h (by simp)
  | some b1 =>
  cases hb2 : obGet ob t.leg2.symbol with
  | none => rw [hb1, hb2] at h; exact absurd h (by simp)
  | some b2 =>
  cases hb3 : obGet ob t.leg3.symbol with
  | none => rw [hb1, hb2, hb3] at h; exact absurd h (by simp)
  | some b3 =>
  rw [hb1, hb2, hb3] at h
  simp only [] at h
  by_cases hc : ((if t.leg1.side = .buy then b1.ask_price else b1.bid_price) ≤ 0 ∨
      (if t.leg2.side = .buy then b2.ask_price else b2.bid_price) ≤ 0 ∨
      (if t.leg3.side = .buy then b3.ask_price else b3.bid_price) ≤ 0)
  · rw [if_pos hc] at h
    exact absurd h (by simp)
  · rw [if_neg hc] at h
    exact (Option.some.inj h) ▸ rfl

/-- Membership is preserved by `insertDesc`. -/
theorem mem_insertDesc {o x : Opportunity} {l : List Opportunity} :
    x ∈ insertDesc o l ↔ x = o ∨ x ∈ l := by
  induction l with
  | nil => simp [insertDesc]
  | cons hd tl ih =>
    unfold insertDesc
    by_cases h : hd.profit_pct < o.profit_pct
    · rw [if_pos h]
      simp only [List.mem_cons]
    · rw [if_neg h]
      simp only [List.mem_cons, ih]
      tauto

/-- Membership is preserved by `sortDesc`. -/
theorem mem_sortDesc {x : Opportunity} {l : List Opportunity} :
    x ∈ sortDesc l ↔ x ∈ l := by
  induction l with
  | nil => simp [sortDesc]
  | cons hd tl ih =>
    unfold sortDesc
    rw [mem_insertDesc, ih, List.mem_cons]

/-!
## Claim C1
-/

/-- **C1.**  For every triangle path whose three symbols all have BBOs in the
cache and whose side-selected leg prices (ask for BUY, bid for SELL) are all
positive, `calculate_opportunity` returns an `Opportunity` whose
`gross_return` composes the three legs starting from 1 (divide by the leg
price on a BUY, multiply on a SELL), whose `net_return` is
`gross_return * (1 - fee_rate)^3` and whose `profit_pct` is
`(net_return - 1) * 100`; in particular, on the S1 inputs (leg prices 50000,
0.059, 3000 for sides BUY, BUY, SELL) with `fee_rate = 0.001` the gross
return is `60/59 ≈ 1.01695`, the net return is `≈ 1.01390`, and the
opportunity is profitable. -/
theorem c1_calculate_opportunity_returns :
    (∀ (c : ArbitrageCalculator) (path : TrianglePath) (ob : Orderbook) (ts : ℤ)
      (b1 b2 b3 : BBO),
      obGet ob path.leg1.symbol = some b1 →
      obGet ob path.leg2.symbol = some b2 →
      obGet ob path.leg3.symbol = some b3 →
      0 < (if path.leg1.side = .buy then b1.ask_price else b1.bid_price) →
      0 < (if path.leg2.side = .buy then b2.ask_price else b2.bid_price) →
      0 < (if path.leg3.side = .buy then b3.ask_price else b3.bid_price) →
      ∃ opp, c.calculate_opportunity path ob ts = some opp ∧
        opp.gross_return =
          (let p1 := if path.leg1.side = .buy then b1.ask_price else b1.bid_price
           let p2 := if path.leg2.side = .buy then b2.ask_price else b2.bid_price
           let p3 := if path.leg3.side = .buy then b3.ask_price else b3.bid_price
           let r1 := if path.leg1.side = .buy then 1 / p1 else 1 * p1
           let r2 := if path.leg2.side = .buy then r1 / p2 else r1 * p2
           if path.leg3.side = .buy then r2 / p3 else r2 * p3) ∧
        opp.net_return = opp.gross_return * (1 - c.fee_rate) ^ 3 ∧
        opp.profit_pct = (opp.net_return - 1) * 100) ∧
    (∃ opp, calcS1.calculate_opportunity pathS1 obS1 0 = some opp ∧
      opp.gross_return = 60/59 ∧
      |opp.gross_return - 101695/100000| < 1/100000 ∧
      opp.net_return = 60/59 * (999/1000) ^ 3 ∧
      |opp.net_return - 101390/100000| < 1/100000 ∧
      opp.is_profitable = true) := by
  have hmain : ∀ (c : ArbitrageCalculator) (path : TrianglePath) (ob : Orderbook) (ts : ℤ)
      (b1 b2 b3 : BBO),
      obGet ob path.leg1.symbol = some b1 →
      obGet ob path.leg2.symbol = some b2 →
      obGet ob path.leg3.symbol = some b3 →
      0 < (if path.leg1.side = .buy then b1.ask_price else b1.bid_price) →
      0 < (if path.leg2.side = .buy then b2.ask_price else b2.bid_price) →
      0 < (if path.leg3.side = .buy then b3.ask_price else b3.bid_price) →
      ∃ opp, c.calculate_opportunity path ob ts = some opp ∧
        opp.gross_return =
          (let p1 := if path.leg1.side = .buy then b1.ask_price else b1.bid_price
           let p2 := if path.leg2.side = .buy then b2.ask_price else b2.bid_price
           let p3 := if path.leg3.side = .buy then b3.ask_price else b3.bid_price
           let r1 := if path.leg1.side = .buy then 1 / p1 else 1 * p1
           let r2 := if path.leg2.side = .buy then r1 / p2 else r1 * p2
           if path.leg3.side = .buy then r2 / p3 else r2 * p3) ∧
        opp.net_return = opp.gross_return * (1 - c.fee_rate) ^ 3 ∧
        opp.profit_pct = (opp.net_return - 1) * 100 := by
    intro c path ob ts b1 b2 b3 h1 h2 h3 hp1 hp2 hp3
    have hcond : ¬ ((if path.leg1.side = .buy then b1.ask_price else b1.bid_price) ≤ 0 ∨
        (if path.leg2.side = .buy then b2.ask_price else b2.bid_price) ≤ 0 ∨
        (if path.leg3.side = .buy then b3.ask_price else b3.bid_price) ≤ 0) := by
      push_neg
      exact ⟨hp1, hp2, hp3⟩
    unfold ArbitrageCalculator.calculate_opportunity
    rw [h1, h2, h3]
    simp only []
    rw [if_neg hcond]
    refine ⟨_, rfl, ?_, ?_, ?_⟩
    · simp [ArbitrageCalculator.calculate_gross_return, legStep]
    · simp [ArbitrageCalculator.fee_multiplier]
    · simp
  refine ⟨hmain, ?_⟩
  have h1 : obGet obS1 pathS1.leg1.symbol = some bboBTCUSDT := by rfl
  have h2 : obGet obS1 pathS1.leg2.symbol = some bboETHBTC := by rfl
  have h3 : obGet obS1 pathS1.leg3.symbol = some bboETHUSDT := by rfl
  have hp1 : 0 < (if pathS1.leg1.side = .buy then bboBTCUSDT.ask_price else bboBTCUSDT.bid_price) := by
    norm_num [pathS1, TrianglePath.leg1, bboBTCUSDT]
  have hp2 : 0 < (if pathS1.leg2.side = .buy then bboETHBTC.ask_price else bboETHBTC.bid_price) := by
    norm_num [pathS1, TrianglePath.leg2, bboETHBTC]
  have hp3 : 0 < (if pathS1.leg3.side = .buy then bboETHUSDT.ask_price else bboETHUSDT.bid_price) := by
    norm_num [pathS1, TrianglePath.leg3, bboETHUSDT, sell_ne_buy]
  obtain ⟨opp, heq, hg, hn, hpct⟩ := hmain calcS1 pathS1 obS1 0 _ _ _ h1 h2 h3 hp1 hp2 hp3
  have hg1 : opp.gross_return = 60/59 := by
    rw [hg]
    norm_num [pathS1, TrianglePath.leg1, TrianglePath.leg2, TrianglePath.leg3,
      bboBTCUSDT, bboETHBTC, bboETHUSDT, sell_ne_buy]
  have hn1 : opp.net_return = 60/59 * (999/1000) ^ 3 := by
    rw [hn, hg1]
    norm_num [calcS1]
  refine ⟨opp, heq, hg1, ?_, hn1, ?_, ?_⟩
  · rw [hg1, abs_sub_lt_iff]
    norm_num
  · rw [hn1, abs_sub_lt_iff]
    norm_num
  · rw [Opportunity.is_profitable, decide_eq_true_eq, hn1]
    norm_num

/-- Witness for C1: the quantified part applied to the S1 inputs (at a
different timestamp), with all hypotheses discharged concretely. -/
theorem c1_witness :
    ∃ opp, calcS1.calculate_opportunity pathS1 obS1 5 = some opp ∧
      opp.gross_return =
        (let p1 := if pathS1.leg1.side = .buy then bboBTCUSDT.ask_price else bboBTCUSDT.bid_price
         let p2 := if pathS1.leg2.side = .buy then bboETHBTC.ask_price else bboETHBTC.bid_price
         let p3 := if pathS1.leg3.side = .buy then bboETHUSDT.ask_price else bboETHUSDT.bid_price
         let r1 := if pathS1.leg1.side = .buy then 1 / p1 else 1 * p1
         let r2 := if pathS1.leg2.side = .buy then r1 / p2 else r1 * p2
         if pathS1.leg3.side = .buy then r2 / p3 else r2 * p3) ∧
      opp.net_return = opp.gross_return * (1 - calcS1.fee_rate) ^ 3 ∧
      opp.profit_pct = (opp.net_return - 1) * 100 :=
  c1_calculate_opportunity_returns.1 calcS1 pathS1 obS1 5 bboBTCUSDT bboETHBTC bboETHUSDT
    rfl rfl rfl
    (by norm_num [pathS1, TrianglePath.leg1, bboBTCUSDT])
    (by norm_num [pathS1, TrianglePath.leg2, bboETHBTC])
    (by norm_num [pathS1, TrianglePath.leg3, bboETHUSDT, sell_ne_buy])

/-!
## Claim C2
-/

/-- **C2, counterexample.**  The claim says `max_trade_qty` equals the
minimum of the per-leg quantities converted to base-currency units via the
forward composition (`maxQtyForwardSpec`).  On the S1 triangle the code
returns 30000 (it converts leg 3 by its own price, `10 * 3000`), while the
forward composition gives 29500 (`10 / r2 = 10 * 2950`): the two differ by
the gross-return factor. -/
theorem c2_counterexample :
    ∃ opp, calcS1.calculate_opportunity pathS1 obS1 0 = some opp ∧
      opp.max_trade_qty = 30000 ∧
      maxQtyForwardSpec .buy 50000 1 .buy (59/1000) 50 .sell 3000 10 = 29500 ∧
      opp.max_trade_qty ≠ maxQtyForwardSpec .buy 50000 1 .buy (59/1000) 50 .sell 3000 10 := by
  have hspec : maxQtyForwardSpec .buy 50000 1 .buy (59/1000) 50 .sell 3000 10 = 29500 := by
    norm_num [maxQtyForwardSpec, legStep, sell_ne_buy, min_def]
  have heq : calcS1.calculate_opportunity pathS1 obS1 0 = some {
      path := pathS1
      profit_pct := (60/59 * (999/1000) ^ 3 - 1) * 100
      gross_return := 60/59
      net_return := 60/59 * (999/1000) ^ 3
      prices := (50000, 59/1000, 3000)
      quantities := (1, 50, 10)
      max_trade_qty := 30000
      timestamp_us := 0 } := by
    unfold ArbitrageCalculator.calculate_opportunity
    simp +decide [obS1, obGet, assocGet, pathS1, TrianglePath.leg1, TrianglePath.leg2,
      TrianglePath.leg3, bboBTCUSDT, bboETHBTC, bboETHUSDT,
      ArbitrageCalculator.calculate_gross_return, legStep,
      ArbitrageCalculator.calculate_max_quantity, ArbitrageCalculator.fee_multiplier,
      calcS1, min_def, Opportunity.mk.injEq]
    norm_num
  refine ⟨_, heq, rfl, hspec, ?_⟩
  rw [hspec]
  norm_num

/-- **C2, amended.**  For every triangle path with all three BBOs present
and positive side-selected prices, `calculate_opportunity` returns an
opportunity whose `max_trade_qty` is
`min (min (q1*p1) (q2*p2*p1)) (q3*p3 if leg3 is a SELL else q3)` — the
source's ad-hoc expression — which is *not* the forward-composition
conversion of the per-leg quantities (see `c2_counterexample`). -/
theorem c2_amended (c : ArbitrageCalculator) (path : TrianglePath) (ob : Orderbook)
    (ts : ℤ) (b1 b2 b3 : BBO)
    (h1 : obGet ob path.leg1.symbol = some b1)
    (h2 : obGet ob path.leg2.symbol = some b2)
    (h3 : obGet ob path.leg3.symbol = some b3)
    (hp1 : 0 < (if path.leg1.side = .buy then b1.ask_price else b1.bid_price))
    (hp2 : 0 < (if path.leg2.side = .buy then b2.ask_price else b2.bid_price))
    (hp3 : 0 < (if path.leg3.side = .buy then b3.ask_price else b3.bid_price)) :
    ∃ opp, c.calculate_opportunity path ob ts = some opp ∧
      opp.max_trade_qty =
        (let p1 := if path.leg1.side = .buy then b1.ask_price else b1.bid_price
         let p2 := if path.leg2.side = .buy then b2.ask_price else b2.bid_price
         let p3 := if path.leg3.side = .buy then b3.ask_price else b3.bid_price
         let q1 := if path.leg1.side = .buy then b1.ask_qty else b1.bid_qty
         let q2 := if path.leg2.side = .buy then b2.ask_qty else b2.bid_qty
         let q3 := if path.leg3.side = .buy then b3.ask_qty else b3.bid_qty
         min (min (q1 * p1) (q2 * p2 * p1))
           (if path.leg3.side = .sell then q3 * p3 else q3)) := by
  have hcond : ¬ ((if path.leg1.side = .buy then b1.ask_price else b1.bid_price) ≤ 0 ∨
      (if path.leg2.side = .buy then b2.ask_price else b2.bid_price) ≤ 0 ∨
      (if path.leg3.side = .buy then b3.ask_price else b3.bid_price) ≤ 0) := by
    push_neg
    exact ⟨hp1, hp2, hp3⟩
  unfold ArbitrageCalculator.calculate_opportunity
  rw [h1, h2, h3]
  simp only []
  rw [if_neg hcond]
  refine ⟨_, rfl, ?_⟩
  simp [ArbitrageCalculator.calculate_max_quantity]

/-- Witness for the amended C2, at the S1 inputs. -/
theorem c2_amended_witness :
    ∃ opp, calcS1.calculate_opportunity pathS1 obS1 9 = some opp ∧
      opp.max_trade_qty =
        (let p1 := if pathS1.leg1.side = .buy then bboBTCUSDT.ask_price else bboBTCUSDT.bid_price
         let p2 := if pathS1.leg2.side = .buy then bboETHBTC.ask_price else bboETHBTC.bid_price
         let p3 := if pathS1.leg3.side = .buy then bboETHUSDT.ask_price else bboETHUSDT.bid_price
         let q1 := if pathS1.leg1.side = .buy then bboBTCUSDT.ask_qty else bboBTCUSDT.bid_qty
         let q2 := if pathS1.leg2.side = .buy then bboETHBTC.ask_qty else bboETHBTC.bid_qty
         let q3 := if pathS1.leg3.side = .buy then bboETHUSDT.ask_qty else bboETHUSDT.bid_qty
         min (min (q1 * p1) (q2 * p2 * p1))
           (if pathS1.leg3.side = .sell then q3 * p3 else q3)) :=
  c2_amended calcS1 pathS1 obS1 9 bboBTCUSDT bboETHBTC bboETHUSDT rfl rfl rfl
    (by norm_num [pathS1, TrianglePath.leg1, bboBTCUSDT])
    (by norm_num [pathS1, TrianglePath.leg2, bboETHBTC])
    (by norm_num [pathS1, TrianglePath.leg3, bboETHUSDT, sell_ne_buy])

/-!
## Claim C3
-/

/-- **C3, counterexample.**  The claim asserts `0 ≤ tokens ≤ capacity` after
every completed `acquire`, in particular when `n` exceeds the capacity.  A
full bucket of capacity 2 (refill rate 1/s) asked for 3 tokens sleeps one
second, refills (capped at 2) and subtracts 3 unconditionally, leaving
`tokens = -1 < 0`. -/
theorem c3_counterexample :
    bucketEx.Inv ∧ bucketEx.capacity < (3 : ℤ) ∧
      (bucketEx.acquire 3 0 0).tokens = -1 ∧ ¬ (bucketEx.acquire 3 0 0).Inv := by
  refine ⟨?_, ?_, ?_, ?_⟩
  · constructor <;> norm_num [bucketEx]
  · norm_num [bucketEx]
  · norm_num [bucketEx, TokenBucket.acquire, TokenBucket.refill, min_def]
  · intro h
    have h1 := h.1
    rw [show (bucketEx.acquire 3 0 0).tokens = -1 by
      norm_num [bucketEx, TokenBucket.acquire, TokenBucket.refill, min_def]] at h1
    norm_num at h1

/-- **C3, amended.**  For every bucket satisfying the invariant
`0 ≤ tokens ≤ capacity`, with a positive refill rate, a clock that does not
run backwards and a nonnegative sleep overshoot: `try_acquire` preserves the
invariant for every requested `n`, and `acquire` preserves it whenever
`n ≤ capacity`.  (For `n > capacity`, `acquire` drives `tokens` negative —
see `c3_counterexample` — so the claim's "in particular when n exceeds the
capacity" part fails.) -/
theorem c3_amended (b : TokenBucket) (n : ℕ) (now eps : ℚ)
    (hInv : b.Inv) (hrate : 0 < b.refill_rate) (hnow : b.last_refill ≤ now)
    (heps : 0 ≤ eps) :
    (b.try_acquire n now).1.Inv ∧ ((n : ℤ) ≤ b.capacity → (b.acquire n now eps).Inv) := by
  obtain ⟨htl, htu⟩ := hInv
  have hcap : (0 : ℚ) ≤ (b.capacity : ℚ) := le_trans htl htu
  have hdelta : 0 ≤ (now - b.last_refill) / 1000 * b.refill_rate :=
    mul_nonneg (div_nonneg (sub_nonneg.mpr hnow) (by norm_num)) hrate.le
  have hT1l : 0 ≤ min (b.capacity : ℚ) (b.tokens + (now - b.last_refill) / 1000 * b.refill_rate) :=
    le_min hcap (add_nonneg htl hdelta)
  have hT1u : min (b.capacity : ℚ) (b.tokens + (now - b.last_refill) / 1000 * b.refill_rate) ≤ (b.capacity : ℚ) :=
    min_le_left _ _
  set T1 := min (b.capacity : ℚ) (b.tokens + (now - b.last_refill) / 1000 * b.refill_rate) with hT1
  constructor
  · unfold TokenBucket.try_acquire TokenBucket.refill
    by_cases h : (n : ℚ) ≤ T1
    · rw [if_pos (by exact h)]
      exact ⟨sub_nonneg.mpr h, le_trans (sub_le_self _ (by positivity)) hT1u⟩
    · rw [if_neg (by exact h)]
      exact ⟨hT1l, hT1u⟩
  · intro hn
    have hnq : (n : ℚ) ≤ (b.capacity : ℚ) := by exact_mod_cast hn
    unfold TokenBucket.acquire TokenBucket.refill
    by_cases h : (n : ℚ) ≤ T1
    · rw [if_pos (by exact h)]
      exact ⟨sub_nonneg.mpr h, le_trans (sub_le_self _ (by positivity)) hT1u⟩
    · rw [if_neg (by exact h)]
      have harith : (now + (((n : ℚ) - T1) / b.refill_rate + eps) * 1000 - now) / 1000 * b.refill_rate
          = ((n : ℚ) - T1) + eps * b.refill_rate := by
        field_simp
        ring
      simp only [harith]
      have hT2 : T1 + ((n : ℚ) - T1 + eps * b.refill_rate) = (n : ℚ) + eps * b.refill_rate := by
        ring
      rw [hT2]
      have hT2l : (n : ℚ) ≤ min (b.capacity : ℚ) ((n : ℚ) + eps * b.refill_rate) :=
        le_min hnq (le_add_of_nonneg_right (mul_nonneg heps hrate.le))
      refine ⟨sub_nonneg.mpr hT2l, ?_⟩
      exact le_trans (sub_le_self _ (by positivity)) (min_le_left _ _)

/-- Witness for the amended C3: the full capacity-2 bucket, asked for one
token at time 0 with no sleep overshoot. -/
theorem c3_amended_witness :
    (bucketEx.try_acquire 1 0).1.Inv ∧ (bucketEx.acquire 1 0 0).Inv := by
  have h := c3_amended bucketEx 1 0 0
    (by constructor <;> norm_num [bucketEx])
    (by norm_num [bucketEx]) (by norm_num [bucketEx]) le_rfl
  exact ⟨h.1, h.2 (by norm_num [bucketEx])⟩

/-!
## Claim C4
-/

/-- Splitting the callback loop around a failing callback. -/
theorem run_callbacks_append {ω : Type} (l1 l2 : List (UpdateCallback ω))
    (bbo : BBO) (w : ω) :
    run_callbacks (l1 ++ l2) bbo w =
      match run_callbacks l1 bbo w with
      | .ok w1 => run_callbacks l2 bbo w1
      | .error e => .error e := by
  induction l1 generalizing w with
  | nil => simp [run_callbacks]
  | cons cb rest ih =>
    simp only [List.cons_append, run_callbacks]
    cases cb bbo w with
    | ok w1 => exact ih w1
    | error e => rfl

/-- **C4, counterexample.**  The claim says an exception raised by a callback
is caught, never propagates out of `update`, and the remaining callbacks
still run.  With the callback list `[cbRaises, cbCounts]` over the counter
world `ω = ℕ`, `update` propagates the exception (`Except.error`), and the
counting callback never runs (the result is not `.ok 1`, which it would be
had the error been swallowed and the second callback executed). -/
theorem c4_counterexample :
    (mgrEx.update bboBTCUSDT 0).2 = .error () ∧
      (mgrEx.update bboBTCUSDT 0).2 ≠ .ok 1 :=
  ⟨rfl, fun h => Except.noConfusion h⟩

/-- **C4, amended.**  `update(bbo)` overwrites the stored BBO for
`bbo.symbol` (leaving other symbols untouched) and increments the update
counter by one, and invokes the registered callbacks synchronously in
registration order — but `update` has no per-callback exception handling:
if some callback raises (after the callbacks before it succeeded), the
exception propagates out of `update` and the remaining callbacks do not
run. -/
theorem c4_amended {ω : Type} (m : OrderbookManager ω) (bbo : BBO) (w : ω)
    (pre : List (UpdateCallback ω)) (cb : UpdateCallback ω)
    (post : List (UpdateCallback ω)) (w1 : ω)
    (hsplit : m.callbacks = pre ++ cb :: post)
    (hpre : run_callbacks pre bbo w = .ok w1)
    (hcb : cb bbo w1 = .error ()) :
    obGet (m.update bbo w).1.cache bbo.symbol = some bbo ∧
    (∀ s, s ≠ bbo.symbol → obGet (m.update bbo w).1.cache s = obGet m.cache s) ∧
    (m.update bbo w).1.update_count = m.update_count + 1 ∧
    (m.update bbo w).2 = .error () := by
  refine ⟨?_, ?_, rfl, ?_⟩
  · show obGet (assocSet m.cache bbo.symbol bbo) bbo.symbol = some bbo
    rw [obGet, assocGet_assocSet]
    simp
  · intro s hs
    show obGet (assocSet m.cache bbo.symbol bbo) s = obGet m.cache s
    rw [obGet, assocGet_assocSet, if_neg (fun h => hs h.symm)]
    rfl
  · show run_callbacks m.callbacks bbo w = .error ()
    rw [hsplit, run_callbacks_append, hpre]
    simp only [run_callbacks, hcb]

/-- Witness for the amended C4: the two-callback manager, whose first
callback raises immediately. -/
theorem c4_amended_witness :
    obGet (mgrEx.update bboETHBTC 0).1.cache "ETHBTC" = some bboETHBTC ∧
      (mgrEx.update bboETHBTC 0).1.update_count = 1 ∧
      (mgrEx.update bboETHBTC 0).2 = .error () :=
  ⟨(c4_amended mgrEx bboETHBTC 0 [] cbRaises [cbCounts] 0 rfl rfl rfl).1,
   (c4_amended mgrEx bboETHBTC 0 [] cbRaises [cbCounts] 0 rfl rfl rfl).2.2.1,
   (c4_amended mgrEx bboETHBTC 0 [] cbRaises [cbCounts] 0 rfl rfl rfl).2.2.2⟩

/-!
## Claim C5
-/

/-- Away from exact half-integers, Python's round-half-to-even coincides with
mathematical round-to-nearest. -/
theorem pyRound_eq_round (x : ℚ) (h : Int.fract x ≠ 1/2) :
    pyRound x = round x := by
  unfold pyRound
  simp only [Int.self_sub_floor]
  rw [round_eq]
  have hx : x + 1/2 = (Int.fract x + 1/2) + (⌊x⌋ : ℚ) := by
    rw [Int.fract]
    ring
  rw [hx, Int.floor_add_int]
  by_cases h1 : Int.fract x < 1/2
  · rw [if_pos h1]
    have h0 : ⌊Int.fract x + 1/2⌋ = 0 := by
      rw [Int.floor_eq_iff]
      constructor
      · push_cast
        linarith [Int.fract_nonneg x]
      · push_cast
        linarith
    rw [h0]
    ring
  · have h2 : 1/2 < Int.fract x :=
      lt_of_le_of_ne (not_lt.mp h1) (Ne.symm h)
    rw [if_neg h1, if_pos h2]
    have h0 : ⌊Int.fract x + 1/2⌋ = 1 := by
      rw [Int.floor_eq_iff]
      constructor
      · push_cast
        linarith
      · push_cast
        linarith [Int.fract_lt_one x]
    rw [h0]
    ring

/-- **C5, counterexample.**  The claim says
`round_quantity(q) = floor(q/step) * step`.  With `step_size = 1` and
`q = 0.6`, the code returns `round(0.6) = 1`, while the claimed floor gives
`0`. -/
theorem c5_counterexample :
    infoEx.round_quantity (3/5) = 1 ∧ round_quantity_spec infoEx (3/5) = 0 ∧
      infoEx.round_quantity (3/5) ≠ round_quantity_spec infoEx (3/5) := by
  have h1 : infoEx.round_quantity (3/5) = 1 := by
    norm_num [infoEx, SymbolInfo.round_quantity, pyRound]
  have h2 : round_quantity_spec infoEx (3/5) = 0 := by
    norm_num [infoEx, round_quantity_spec]
  refine ⟨h1, h2, ?_⟩
  rw [h1, h2]
  norm_num

/-- **C5, amended.**  For every `SymbolInfo` with positive `tick_size` and
`step_size`, both helpers round to the *nearest* multiple (Python's
`round`, half to even): `round_price(p) = round(p/tick) * tick` and
`round_quantity(q) = round(q/step) * step` whenever the scaled value is not
an exact half-integer (at half-integers Python rounds to even, and the tie
direction differs from mathematical rounding only there).  In particular
`round_quantity` rounds — it does not floor (see `c5_counterexample`). -/
theorem c5_amended (info : SymbolInfo) (p q : ℚ)
    (ht : 0 < info.tick_size) (hs : 0 < info.step_size)
    (hfp : Int.fract (p / info.tick_size) ≠ 1/2)
    (hfq : Int.fract (q / info.step_size) ≠ 1/2) :
    info.round_price p = round_price_spec info p ∧
    info.round_quantity q = (round (q / info.step_size) : ℚ) * info.step_size := by
  constructor
  · rw [SymbolInfo.round_price, if_neg (not_le.mpr ht), round_price_spec,
      pyRound_eq_round _ hfp]
  · rw [SymbolInfo.round_quantity, if_neg (not_le.mpr hs),
      pyRound_eq_round _ hfq]

/-- Witness for the amended C5: the unit-tick symbol at `p = 2.6`,
`q = 0.6`. -/
theorem c5_amended_witness :
    infoEx.round_price (13/5) = round_price_spec infoEx (13/5) ∧
      infoEx.round_quantity (3/5) = (round ((3/5 : ℚ) / infoEx.step_size) : ℚ) * infoEx.step_size := by
  have h := c5_amended infoEx (13/5) (3/5)
    (by norm_num [infoEx]) (by norm_num [infoEx])
    (by norm_num [infoEx, Int.fract])
    (by norm_num [infoEx, Int.fract])
  exact h

/-!
## Claim C6
-/

/-- **C6, counterexample.**  The claim says the synthetic dry-run commission
is `qty * price * fee_rate` with `fee_rate` the *configured* fee rate.  The
source hardcodes `0.001`: in a run whose risk check passes (adjusted size
1000, leg-1 fill 10 @ 100), the commission is `10 * 100 * 0.001 = 1`,
whereas a configured `fee_rate = 0.002` (admissible per the spec's
configuration range) would demand `10 * 100 * 0.002 = 2`. -/
theorem c6_counterexample :
    (execute_dry RiskLimits.defaults 10000 (RiskState.init 0) oppEx 0 1000 0 1).1.legs.1.commission = 1 ∧
    (execute_dry RiskLimits.defaults 10000 (RiskState.init 0) oppEx 0 1000 0 1).1.legs.1.filled_qty = 10 ∧
    (execute_dry RiskLimits.defaults 10000 (RiskState.init 0) oppEx 0 1000 0 1).1.legs.1.filled_price = 100 ∧
    (10 : ℚ) * 100 * (2/1000) = 2 ∧
    (execute_dry RiskLimits.defaults 10000 (RiskState.init 0) oppEx 0 1000 0 1).1.legs.1.commission ≠ 2 := by
  have heval : (execute_dry RiskLimits.defaults 10000 (RiskState.init 0) oppEx 0 1000 0 1).1.legs.1 =
      { leg := oppEx.path.leg1
        status := .filled
        order_id := some "DRY_0_0"
        filled_qty := 10
        filled_price := 100
        commission := 1
        commission_asset := "BNB"
        error_message := ""
        latency_us := 500 } := by
    norm_num [execute_dry, check_trade, validate_trade_size, RiskState.init,
      RiskLimits.defaults, RiskState.reset_daily, riskHalt, record_trade_start,
      record_trade_complete, record_trade_failed, execute_dry_run, dry_leg_result,
      calculate_leg_quantities, create_failed_result, oppEx, pathS1,
      TrianglePath.leg1, TrianglePath.leg2, TrianglePath.leg3, min_def,
      sell_ne_buy, LegResult.mk.injEq]
    rfl
  rw [heval]
  norm_num

/-- **C6, amended.**  For every opportunity whose pre-trade risk check passes
with a nonzero adjusted size `adj`, executing with `dry_run` enabled returns
an `ExecutionResult` with status SUCCESS in which every leg is marked FILLED
at its quoted leg price with synthetic commission
`qty * price * 0.001` (a hardcoded 0.1% rate, not the configured fee rate —
see `c6_counterexample`), `total_profit = adj * (net_return - 1)`, and no
transport (order-placement) call is made. -/
theorem c6_amended (limits : RiskLimits) (bal : ℚ) (st : RiskState)
    (opp : Opportunity) (today now_ms t0 t1 : ℤ) (adj : ℚ)
    (hpass : (check_trade limits bal st opp opp.max_trade_qty today now_ms).1.passed = true)
    (hadj : (check_trade limits bal st opp opp.max_trade_qty today now_ms).1.adjusted_size = some adj)
    (hne : adj ≠ 0) :
    (execute_dry limits bal st opp today now_ms t0 t1).1.status = .success ∧
    (execute_dry limits bal st opp today now_ms t0 t1).1.legs.1.status = .filled ∧
    (execute_dry limits bal st opp today now_ms t0 t1).1.legs.2.1.status = .filled ∧
    (execute_dry limits bal st opp today now_ms t0 t1).1.legs.2.2.status = .filled ∧
    (execute_dry limits bal st opp today now_ms t0 t1).1.legs.1.filled_price = opp.prices.1 ∧
    (execute_dry limits bal st opp today now_ms t0 t1).1.legs.2.1.filled_price = opp.prices.2.1 ∧
    (execute_dry limits bal st opp today now_ms t0 t1).1.legs.2.2.filled_price = opp.prices.2.2 ∧
    (execute_dry limits bal st opp today now_ms t0 t1).1.legs.1.commission =
      (execute_dry limits bal st opp today now_ms t0 t1).1.legs.1.filled_qty *
        (execute_dry limits bal st opp today now_ms t0 t1).1.legs.1.filled_price * (1/1000) ∧
    (execute_dry limits bal st opp today now_ms t0 t1).1.legs.2.1.commission =
      (execute_dry limits bal st opp today now_ms t0 t1).1.legs.2.1.filled_qty *
        (execute_dry limits bal st opp today now_ms t0 t1).1.legs.2.1.filled_price * (1/1000) ∧
    (execute_dry limits bal st opp today now_ms t0 t1).1.legs.2.2.commission =
      (execute_dry limits bal st opp today now_ms t0 t1).1.legs.2.2.filled_qty *
        (execute_dry limits bal st opp today now_ms t0 t1).1.legs.2.2.filled_price * (1/1000) ∧
    (execute_dry limits bal st opp today now_ms t0 t1).1.total_profit = adj * (opp.net_return - 1) ∧
    (execute_dry limits bal st opp today now_ms t0 t1).2.2 = ([] : List TransportCall) := by
  have hred : execute_dry limits bal st opp today now_ms t0 t1 =
      (execute_dry_run opp adj t0 t1,
        (if (execute_dry_run opp adj t0 t1).status = .success then
          record_trade_complete limits
            (record_trade_start (check_trade limits bal st opp opp.max_trade_qty today now_ms).2 now_ms)
            (execute_dry_run opp adj t0 t1).total_profit
        else record_trade_failed
          (record_trade_start (check_trade limits bal st opp opp.max_trade_qty today now_ms).2 now_ms)), []) := by
    unfold execute_dry
    simp only []
    rw [hpass, hadj]
    simp [hne]
  rw [hred]
  simp only [execute_dry_run, dry_leg_result]
  norm_num

/-- Witness for the amended C6: the concrete passing setup of
`c6_counterexample` (balance 10000, default limits, `oppEx`). -/
theorem c6_amended_witness :
    (execute_dry RiskLimits.defaults 10000 (RiskState.init 0) oppEx 0 1000 0 1).1.status = .success ∧
    (execute_dry RiskLimits.defaults 10000 (RiskState.init 0) oppEx 0 1000 0 1).1.legs.1.status = .filled ∧
    (execute_dry RiskLimits.defaults 10000 (RiskState.init 0) oppEx 0 1000 0 1).1.legs.2.1.status = .filled ∧
    (execute_dry RiskLimits.defaults 10000 (RiskState.init 0) oppEx 0 1000 0 1).1.legs.2.2.status = .filled ∧
    (execute_dry RiskLimits.defaults 10000 (RiskState.init 0) oppEx 0 1000 0 1).1.legs.1.filled_price = oppEx.prices.1 ∧
    (execute_dry RiskLimits.defaults 10000 (RiskState.init 0) oppEx 0 1000 0 1).1.legs.2.1.filled_price = oppEx.prices.2.1 ∧
    (execute_dry RiskLimits.defaults 10000 (RiskState.init 0) oppEx 0 1000 0 1).1.legs.2.2.filled_price = oppEx.prices.2.2 ∧
    (execute_dry RiskLimits.defaults 10000 (RiskState.init 0) oppEx 0 1000 0 1).1.legs.1.commission =
      (execute_dry RiskLimits.defaults 10000 (RiskState.init 0) oppEx 0 1000 0 1).1.legs.1.filled_qty *
        (execute_dry RiskLimits.defaults 10000 (RiskState.init 0) oppEx 0 1000 0 1).1.legs.1.filled_price * (1/1000) ∧
    (execute_dry RiskLimits.defaults 10000 (RiskState.init 0) oppEx 0 1000 0 1).1.legs.2.1.commission =
      (execute_dry RiskLimits.defaults 10000 (RiskState.init 0) oppEx 0 1000 0 1).1.legs.2.1.filled_qty *
        (execute_dry RiskLimits.defaults 10000 (RiskState.init 0) oppEx 0 1000 0 1).1.legs.2.1.filled_price * (1/1000) ∧
    (execute_dry RiskLimits.defaults 10000 (RiskState.init 0) oppEx 0 1000 0 1).1.legs.2.2.commission =
      (execute_dry RiskLimits.defaults 10000 (RiskState.init 0) oppEx 0 1000 0 1).1.legs.2.2.filled_qty *
        (execute_dry RiskLimits.defaults 10000 (RiskState.init 0) oppEx 0 1000 0 1).1.legs.2.2.filled_price * (1/1000) ∧
    (execute_dry RiskLimits.defaults 10000 (RiskState.init 0) oppEx 0 1000 0 1).1.total_profit = 1000 * (oppEx.net_return - 1) ∧
    (execute_dry RiskLimits.defaults 10000 (RiskState.init 0) oppEx 0 1000 0 1).2.2 = ([] : List TransportCall) :=
  c6_amended RiskLimits.defaults 10000 (RiskState.init 0) oppEx 0 1000 0 1 1000
    (by norm_num [check_trade, validate_trade_size, RiskState.init, RiskLimits.defaults,
      RiskState.reset_daily, riskHalt, oppEx, min_def])
    (by norm_num [check_trade, validate_trade_size, RiskState.init, RiskLimits.defaults,
      RiskState.reset_daily, riskHalt, oppEx, min_def])
    (by norm_num)

/-!
## Claim C7
-/

/-- An edge returned by `getEdge g u v` has endpoints `u`, `v`. -/
theorem getEdge_some : ∀ (g : List GraphEdge) (u v : String) (e : GraphEdge),
    getEdge g u v = some e → e.src = u ∧ e.dst = v := by
  intro g
  induction g with
  | nil => intro u v e h; simp [getEdge] at h
  | cons e0 es ih =>
    intro u v e h
    unfold getEdge at h
    by_cases hc : e0.src = u ∧ e0.dst = v
    · rw [if_pos hc] at h
      obtain rfl := Option.some.inj h
      exact hc
    · rw [if_neg hc] at h
      exact ih u v e h

/-- `getEdge` after `add_edge`: the new pair reads back the new attributes,
everything else is unchanged. -/
theorem getEdge_addEdge : ∀ (g : List GraphEdge) (u v sym : String) (sd : OrderSide)
    (x y : String),
    getEdge (addEdge g u v sym sd) x y =
      if u = x ∧ v = y then some ⟨u, v, sym, sd⟩ else getEdge g x y := by
  intro g
  induction g with
  | nil =>
    intro u v sym sd x y
    simp [addEdge, getEdge]
  | cons e es ih =>
    intro u v sym sd x y
    by_cases h : e.src = u ∧ e.dst = v
    · obtain ⟨h1, h2⟩ := h
      subst h1
      subst h2
      rw [show addEdge (e :: es) e.src e.dst sym sd = ⟨e.src, e.dst, sym, sd⟩ :: es by
        rw [addEdge, if_pos ⟨rfl, rfl⟩]]
      by_cases h2 : e.src = x ∧ e.dst = y
      · simp [getEdge, h2]
      · simp [getEdge, h2]
    · rw [show addEdge (e :: es) u v sym sd = e :: addEdge es u v sym sd by
        rw [addEdge, if_neg h]]
      simp only [getEdge]
      rw [ih]
      by_cases h2 : u = x ∧ v = y
      · have hx : ¬ (e.src = x ∧ e.dst = y) := fun hh =>
          h ⟨hh.1.trans h2.1.symm, hh.2.trans h2.2.symm⟩
        rw [if_neg hx, if_pos h2, if_pos h2]
      · rw [if_neg h2, if_neg h2]

/-- Every edge of a graph built by `build_graph_aux` from entries of `infos`
(over a base graph whose edges already come from `infos`) comes from
`infos`. -/
theorem build_graph_aux_edges : ∀ (rest : List (String × String × String))
    (infos : List (String × String × String)) (g0 : List GraphEdge),
    (∀ x ∈ rest, x ∈ infos) →
    (∀ u v e, getEdge g0 u v = some e → EdgeFromInfos infos e) →
    ∀ u v e, getEdge (build_graph_aux g0 rest) u v = some e → EdgeFromInfos infos e := by
  intro rest
  induction rest with
  | nil =>
    intro infos g0 _ h0
    simpa [build_graph_aux] using h0
  | cons entry tl ih =>
    intro infos g0 hsub h0
    obtain ⟨sym, base, quote⟩ := entry
    simp only [build_graph_aux]
    apply ih
    · intro x hx
      exact hsub x (List.mem_cons_of_mem _ hx)
    · intro u v e he
      rw [getEdge_addEdge] at he
      by_cases h1 : base = u ∧ quote = v
      · rw [if_pos h1] at he
        obtain rfl := (Option.some.inj he).symm
        exact ⟨base, quote, hsub _ (List.mem_cons_self _ _), Or.inr ⟨rfl, rfl⟩⟩
      · rw [if_neg h1] at he
        rw [getEdge_addEdge] at he
        by_cases h2 : quote = u ∧ base = v
        · rw [if_pos h2] at he
          obtain rfl := (Option.some.inj he).symm
          exact ⟨base, quote, hsub _ (List.mem_cons_self _ _), Or.inl ⟨rfl, rfl⟩⟩
        · rw [if_neg h2] at he
          exact h0 u v e he

/-- Every edge of `build_graph infos` comes from an entry of `infos`. -/
theorem edge_of_build_graph (infos : List (String × String × String))
    (u v : String) (e : GraphEdge) (h : getEdge (build_graph infos) u v = some e) :
    EdgeFromInfos infos e :=
  build_graph_aux_edges infos infos [] (fun _ hx => hx)
    (by intro u1 v1 e1 he1; simp [getEdge] at he1) u v e h

/-- With pairwise-distinct symbol keys (as in a Python dict), a symbol
determines its `(base, quote)` pair. -/
theorem infos_key_unique : ∀ (infos : List (String × String × String))
    (s b q b' q' : String),
    (infos.map Prod.fst).Nodup → (s, b, q) ∈ infos → (s, b', q') ∈ infos →
    b = b' ∧ q = q' := by
  intro infos
  induction infos with
  | nil =>
    intro s b q b' q' _ h1 _
    simp at h1
  | cons hd tl ih =>
    intro s b q b' q' hnd h1 h2
    rw [List.map_cons, List.nodup_cons] at hnd
    obtain ⟨hhd, htl⟩ := hnd
    rcases List.mem_cons.mp h1 with h1 | h1 <;> rcases List.mem_cons.mp h2 with h2 | h2
    · rw [← h2] at h1
      obtain ⟨hb, hq⟩ : b = b' ∧ q = q' := by
        simpa [Prod.mk.injEq] using h1
      exact ⟨hb, hq⟩
    · exfalso
      apply hhd
      have hfst : hd.1 = s := by rw [← h1]
      rw [hfst]
      simpa using List.mem_map_of_mem Prod.fst h2
    · exfalso
      apply hhd
      have hfst : hd.1 = s := by rw [← h2]
      rw [hfst]
      simpa using List.mem_map_of_mem Prod.fst h1
    · exact ih s b q b' q' htl h1 h2

/-- Two generated edges with the same symbol connect the same unordered
asset pair. -/
theorem edge_symbol_pair (infos : List (String × String × String))
    (hnd : (infos.map Prod.fst).Nodup) (e1 e2 : GraphEdge)
    (h1 : EdgeFromInfos infos e1) (h2 : EdgeFromInfos infos e2)
    (hsym : e1.symbol = e2.symbol) :
    (e1.src = e2.src ∧ e1.dst = e2.dst) ∨ (e1.src = e2.dst ∧ e1.dst = e2.src) := by
  obtain ⟨b, q, hm, hc⟩ := h1
  obtain ⟨b', q', hm', hc'⟩ := h2
  rw [hsym] at hm
  obtain ⟨hb, hq⟩ := infos_key_unique infos _ _ _ _ _ hnd hm hm'
  subst hb
  subst hq
  rcases hc with ⟨hs, hd⟩ | ⟨hs, hd⟩ <;> rcases hc' with ⟨hs', hd'⟩ | ⟨hs', hd'⟩
  · exact Or.inl ⟨hs.trans hs'.symm, hd.trans hd'.symm⟩
  · exact Or.inr ⟨hs.trans hd'.symm, hd.trans hs'.symm⟩
  · exact Or.inr ⟨hs.trans hd'.symm, hd.trans hs'.symm⟩
  · exact Or.inl ⟨hs.trans hs'.symm, hd.trans hd'.symm⟩

/-- Shape of a successfully built triangle. -/
theorem build_triangle_some (g : List GraphEdge) (base m1 m2 : String)
    (t : TrianglePath) (h : build_triangle g base m1 m2 = some t) :
    ∃ e1 e2 e3, getEdge g base m1 = some e1 ∧ getEdge g m1 m2 = some e2 ∧
      getEdge g m2 base = some e3 ∧
      t = { id := base ++ "-" ++ m1 ++ "-" ++ m2
            base_asset := base
            legs :=
              (⟨e1.symbol, e1.side, base, m1⟩,
               ⟨e2.symbol, e2.side, m1, m2⟩,
               ⟨e3.symbol, e3.side, m2, base⟩) } := by
  unfold build_triangle at h
  cases he1 : getEdge g base m1 with
  | none => rw [he1] at h; simp at h
  | some e1 =>
  cases he2 : getEdge g m1 m2 with
  | none => rw [he1, he2] at h; simp at h
  | some e2 =>
  cases he3 : getEdge g m2 base with
  | none => rw [he1, he2, he3] at h; simp at h
  | some e3 =>
  rw [he1, he2, he3] at h
  simp only [] at h
  exact ⟨e1, e2, e3, rfl, rfl, rfl, (Option.some.inj h).symm⟩

/-- A triangle built from three distinct assets (the middles distinct from
the base and from each other) over a `build_graph` with unique symbol keys
is well-formed: the legs chain and the symbols are pairwise distinct. -/
theorem build_triangle_good (infos : List (String × String × String))
    (hnd : (infos.map Prod.fst).Nodup) (base m1 m2 : String) (t : TrianglePath)
    (hm1 : m1 ≠ base) (hm2 : m2 ≠ base) (hm12 : m2 ≠ m1)
    (h : build_triangle (build_graph infos) base m1 m2 = some t) :
    GoodTriangle base t := by
  obtain ⟨e1, e2, e3, he1, he2, he3, rfl⟩ := build_triangle_some _ _ _ _ _ h
  obtain ⟨hs1, hd1⟩ := getEdge_some _ _ _ _ he1
  obtain ⟨hs2, hd2⟩ := getEdge_some _ _ _ _ he2
  obtain ⟨hs3, hd3⟩ := getEdge_some _ _ _ _ he3
  have p1 := edge_of_build_graph infos _ _ _ he1
  have p2 := edge_of_build_graph infos _ _ _ he2
  have p3 := edge_of_build_graph infos _ _ _ he3
  refine ⟨rfl, rfl, rfl, rfl, rfl, ?_, ?_, ?_⟩
  · show e1.symbol ≠ e2.symbol
    intro heq
    rcases edge_symbol_pair infos hnd e1 e2 p1 p2 heq with ⟨ha, _⟩ | ⟨ha, _⟩
    · exact hm1 (by rw [← hs2, ← ha, hs1])
    · exact hm2 (by rw [← hd2, ← ha, hs1])
  · show e1.symbol ≠ e3.symbol
    intro heq
    rcases edge_symbol_pair infos hnd e1 e3 p1 p3 heq with ⟨ha, _⟩ | ⟨_, hb⟩
    · exact hm2 (by rw [← hs3, ← ha, hs1])
    · exact hm12 (by rw [← hs3, ← hb, hd1])
  · show e2.symbol ≠ e3.symbol
    intro heq
    rcases edge_symbol_pair infos hnd e2 e3 p2 p3 heq with ⟨ha, _⟩ | ⟨ha, _⟩
    · exact hm12 (by rw [← hs3, ← ha, hs2])
    · exact hm1 (by rw [← hs2, ha, hd3])

/-- The inner discovery loop only accumulates well-formed triangles. -/
theorem find_triangles_inner_good (infos : List (String × String × String))
    (hnd : (infos.map Prod.fst).Nodup) (base : String) (maxT : ℕ) (fh : String)
    (hfh : fh ≠ base) :
    ∀ (l : List String) (acc : List TrianglePath) (seen : List (String × String)),
      (∀ t ∈ acc, GoodTriangle base t) →
      ∀ t ∈ (find_triangles_inner (build_graph infos) base maxT fh l acc seen).1,
        GoodTriangle base t := by
  intro l
  induction l with
  | nil =>
    intro acc seen hacc
    simpa [find_triangles_inner] using hacc
  | cons sh rest ih =>
    intro acc seen hacc
    unfold find_triangles_inner
    by_cases hc1 : sh = base ∨ sh = fh
    · rw [if_pos hc1]
      exact ih acc seen hacc
    · rw [if_neg hc1]
      push_neg at hc1
      obtain ⟨hc1a, hc1b⟩ := hc1
      by_cases hc2 : (getEdge (build_graph infos) sh base).isNone = true
      · rw [if_pos hc2]
        exact ih acc seen hacc
      · rw [if_neg hc2]
        by_cases hc3 : seenHas seen fh sh = true
        · rw [if_pos hc3]
          exact ih acc seen hacc
        · rw [if_neg hc3]
          cases hbt : build_triangle (build_graph infos) base fh sh with
          | none =>
            simp only [hbt]
            exact ih acc ((fh, sh) :: seen) hacc
          | some t0 =>
            simp only [hbt]
            have hgood : GoodTriangle base t0 :=
              build_triangle_good infos hnd base fh sh t0 hfh hc1a hc1b hbt
            have hacct : ∀ t ∈ acc ++ [t0], GoodTriangle base t := by
              intro t ht
              rcases List.mem_append.mp ht with ht | ht
              · exact hacc t ht
              · rw [List.mem_singleton.mp ht]
                exact hgood
            by_cases hmax : maxT ≤ acc.length + 1
            · rw [if_pos hmax]
              exact hacct
            · rw [if_neg hmax]
              exact ih (acc ++ [t0]) ((fh, sh) :: seen) hacct

/-- The outer discovery loop only accumulates well-formed triangles. -/
theorem find_triangles_outer_good (infos : List (String × String × String))
    (hnd : (infos.map Prod.fst).Nodup) (base : String) (maxT : ℕ) :
    ∀ (l : List String) (acc : List TrianglePath) (seen : List (String × String)),
      (∀ t ∈ acc, GoodTriangle base t) →
      ∀ t ∈ find_triangles_outer (build_graph infos) base maxT l acc seen,
        GoodTriangle base t := by
  intro l
  induction l with
  | nil =>
    intro acc seen hacc
    simpa [find_triangles_outer] using hacc
  | cons fh rest ih =>
    intro acc seen hacc
    unfold find_triangles_outer
    by_cases hfh : fh = base
    · rw [if_pos hfh]
      exact ih acc seen hacc
    · rw [if_neg hfh]
      simp only []
      have hinner := find_triangles_inner_good infos hnd base maxT fh hfh
        (neighbors (build_graph infos) fh) acc seen hacc
      by_cases hmax : maxT ≤
          (find_triangles_inner (build_graph infos) base maxT fh
            (neighbors (build_graph infos) fh) acc seen).1.length
      · rw [if_pos hmax]
        exact hinner
      · rw [if_neg hmax]
        exact ih _ _ hinner

/-- **C7.**  Every triangle returned by `find_triangles(base, max_triangles)`
over a graph built from a symbol table with unique symbol keys satisfies the
claimed invariants: `legs[0].from = base`, `legs[i].to = legs[(i+1) mod
3].from` for each `i`, `legs[2].to = base`, and the three leg symbols are
pairwise distinct. -/
theorem c7_find_triangles_invariants (infos : List (String × String × String))
    (base : String) (maxT : ℕ) (hnd : (infos.map Prod.fst).Nodup) :
    ∀ t ∈ find_triangles (build_graph infos) base maxT, GoodTriangle base t := by
  intro t ht
  unfold find_triangles at ht
  by_cases hb : hasNode (build_graph infos) base = true
  · rw [if_pos hb] at ht
    exact find_triangles_outer_good infos hnd base maxT
      (neighbors (build_graph infos) base) [] [] (by intro t0 ht0; simp at ht0) t ht
  · rw [if_neg hb] at ht
    simp at ht

/-- Witness for C7: the three-pair S1 symbol table discovers exactly one
triangle from USDT, and it is well-formed. -/
theorem c7_witness :
    (infosS1.map Prod.fst).Nodup ∧
      (find_triangles (build_graph infosS1) "USDT" 100).length = 1 ∧
      ∀ t ∈ find_triangles (build_graph infosS1) "USDT" 100, GoodTriangle "USDT" t :=
  ⟨by decide, by decide,
    c7_find_triangles_invariants infosS1 "USDT" 100 (by decide)⟩

/-!
## Claim C8
-/

/-- **C8.**  With the default limits (`daily_loss_limit = 50`) and a fresh
state, `record_trade_complete(-25)` leaves trading enabled,
`record_trade_complete(-30)` then halts with a reason containing
"loss limit", and every later `check_trade` on the same calendar day is
rejected. -/
theorem c8_daily_loss_halt (today : ℤ) :
    (record_trade_complete RiskLimits.defaults (RiskState.init today) (-25)).is_halted = false ∧
    (record_trade_complete RiskLimits.defaults
        (record_trade_complete RiskLimits.defaults (RiskState.init today) (-25)) (-30)).is_halted = true ∧
    (∃ pre suf : String,
      (record_trade_complete RiskLimits.defaults
          (record_trade_complete RiskLimits.defaults (RiskState.init today) (-25)) (-30)).halt_reason =
        pre ++ "loss limit" ++ suf) ∧
    (∀ (bal : ℚ) (opp : Opportunity) (size : ℚ) (now : ℤ),
      (check_trade RiskLimits.defaults bal
        (record_trade_complete RiskLimits.defaults
          (record_trade_complete RiskLimits.defaults (RiskState.init today) (-25)) (-30))
        opp size today now).1.passed = false) := by
  have h1 : record_trade_complete RiskLimits.defaults (RiskState.init today) (-25) =
      { daily_pnl := -25, daily_trades := 1, open_positions := 0, last_trade_time_ms := 0,
        current_date := today, is_halted := false, halt_reason := "" } := by
    norm_num [record_trade_complete, RiskState.init, RiskLimits.defaults, riskHalt,
      max_def, RiskState.mk.injEq]
  rw [h1]
  have h2 : record_trade_complete RiskLimits.defaults
      { daily_pnl := -25, daily_trades := 1, open_positions := 0, last_trade_time_ms := 0,
        current_date := today, is_halted := false, halt_reason := "" } (-30) =
      { daily_pnl := -55, daily_trades := 2, open_positions := 0, last_trade_time_ms := 0,
        current_date := today, is_halted := true, halt_reason := "Daily loss limit reached" } := by
    norm_num [record_trade_complete, RiskLimits.defaults, riskHalt, max_def,
      RiskState.mk.injEq]
  rw [h2]
  refine ⟨rfl, rfl, ⟨"Daily ", " reached", rfl⟩, ?_⟩
  intro bal opp size now
  simp [check_trade]

/-!
## Claim C10
-/

/-- **C10.**  `check_trade` is not read-only: on a state with
`daily_pnl ≤ -daily_loss_limit`, not yet halted, on the same calendar day, a
single call both returns a rejected result (reason "Daily loss limit
reached") and mutates the state to halted with that reason, so every later
`check_trade` on the same day rejects as halted even though no trade was
recorded in between. -/
theorem c10_check_trade_mutates (limits : RiskLimits) (bal : ℚ) (st : RiskState)
    (opp : Opportunity) (size : ℚ) (today now : ℤ)
    (hdate : st.current_date = today) (hhalt : st.is_halted = false)
    (hpnl : st.daily_pnl ≤ -limits.daily_loss_limit) :
    (check_trade limits bal st opp size today now).1.passed = false ∧
    (check_trade limits bal st opp size today now).1.reason = "Daily loss limit reached" ∧
    (check_trade limits bal st opp size today now).2.is_halted = true ∧
    (check_trade limits bal st opp size today now).2.halt_reason = "Daily loss limit reached" ∧
    (∀ (bal2 : ℚ) (opp2 : Opportunity) (size2 : ℚ) (now2 : ℤ),
      (check_trade limits bal2 (check_trade limits bal st opp size today now).2
        opp2 size2 today now2).1.passed = false) := by
  have hst : check_trade limits bal st opp size today now =
      (⟨false, "Daily loss limit reached", none⟩, riskHalt st "Daily loss limit reached") := by
    simp [check_trade, hdate, hhalt, hpnl]
  refine ⟨by rw [hst], by rw [hst], by rw [hst]; rfl, by rw [hst]; rfl, ?_⟩
  intro bal2 opp2 size2 now2
  rw [hst]
  simp [check_trade, riskHalt, hdate]

/-- Witness for C10: a concrete state 100 under water on day 0. -/
theorem c10_witness :
    (check_trade RiskLimits.defaults 1000 ⟨-100, 0, 0, 0, 0, false, ""⟩ oppEx 100 0 0).1.passed = false ∧
    (check_trade RiskLimits.defaults 1000 ⟨-100, 0, 0, 0, 0, false, ""⟩ oppEx 100 0 0).2.is_halted = true ∧
    (check_trade RiskLimits.defaults 1000 ⟨-100, 0, 0, 0, 0, false, ""⟩ oppEx 100 0 0).2.halt_reason =
      "Daily loss limit reached" ∧
    (check_trade RiskLimits.defaults 7
      (check_trade RiskLimits.defaults 1000 ⟨-100, 0, 0, 0, 0, false, ""⟩ oppEx 100 0 0).2
      oppEx 3 0 9).1.passed = false := by
  have h := c10_check_trade_mutates RiskLimits.defaults 1000
    ⟨-100, 0, 0, 0, 0, false, ""⟩ oppEx 100 0 0 rfl rfl
    (by norm_num [RiskLimits.defaults])
  exact ⟨h.1, h.2.2.1, h.2.2.2.1, h.2.2.2.2 7 oppEx 3 9⟩

/-!
## Claim C9
-/

/-- The triangle loop of `on_price_update` never emits an opportunity for a
triangle id that is still inside its cooldown window, and leaves that id's
recorded emission time unchanged. -/
theorem scan_triangles_cooldown (cfg : OpportunityDetectorCfg) (ob : Orderbook)
    (ts : ℤ) (tid : String) (tPrev : ℤ) (hcool : ts - tPrev < COOLDOWN_US) :
    ∀ (l : List TrianglePath) (opps : List Opportunity) (le : List (String × ℤ)),
      assocGet le tid = some tPrev →
      (∀ o ∈ opps, o.path.id ≠ tid) →
      (∀ o ∈ (scan_triangles cfg ob ts l opps le).1, o.path.id ≠ tid) ∧
      assocGet (scan_triangles cfg ob ts l opps le).2 tid = some tPrev := by
  intro l
  induction l with
  | nil =>
    intro opps le hle hopps
    exact ⟨hopps, hle⟩
  | cons t rest ih =>
    intro opps le hle hopps
    unfold scan_triangles
    by_cases hc1 : ts - (assocGet le t.id).getD 0 < COOLDOWN_US
    · rw [if_pos hc1]
      exact ih opps le hle hopps
    · rw [if_neg hc1]
      have htid : t.id ≠ tid := by
        intro heq
        rw [heq, hle] at hc1
        simp only [Option.getD_some] at hc1
        exact hc1 hcool
      by_cases hc2 : ¬ has_all_symbols ob t = true
      · rw [if_pos hc2]
        exact ih opps le hle hopps
      · rw [if_neg hc2]
        cases hco : cfg.calculator.calculate_opportunity t ob ts with
        | none =>
          simp only [hco]
          exact ih opps le hle hopps
        | some opp =>
          simp only [hco]
          by_cases hc3 : cfg.min_profit_threshold * 100 ≤ opp.profit_pct
          · rw [if_pos hc3]
            have hopp_path : opp.path = t := calculate_opportunity_path hco
            have hopps' : ∀ o ∈ opps ++ [opp], o.path.id ≠ tid := by
              intro o ho
              rcases List.mem_append.mp ho with ho | ho
              · exact hopps o ho
              · rw [List.mem_singleton.mp ho, hopp_path]
                exact htid
            have hle' : assocGet (assocSet le t.id ts) tid = some tPrev := by
              rw [assocGet_assocSet, if_neg htid]
              exact hle
            by_cases hmax : cfg.max_opportunities ≤ opps.length + 1
            · rw [if_pos hmax]
              exact ⟨hopps', hle'⟩
            · rw [if_neg hmax]
              exact ih (opps ++ [opp]) (assocSet le t.id ts) hle' hopps'
          · rw [if_neg hc3]
            exact ih opps le hle hopps

/-- **C9.**  If the detector recorded an emission for triangle id `T.id` at
time `tPrev`, then a tick processed at any time `ts` with
`ts - tPrev < COOLDOWN_US` (100 ms) emits no opportunity for that triangle;
in particular, two identical profitable S1 ticks 10 ms apart produce exactly
one emitted opportunity (the first call emits one, the second emits none). -/
theorem c9_cooldown_suppression :
    (∀ (cfg : OpportunityDetectorCfg) (ob : Orderbook) (le : List (String × ℤ))
      (sym : String) (ts : ℤ) (T : TrianglePath) (tPrev : ℤ),
      assocGet le T.id = some tPrev →
      ts - tPrev < COOLDOWN_US →
      ∀ opp ∈ (on_price_update cfg ob le sym ts).1, opp.path.id ≠ T.id) ∧
    ((on_price_update cfgS1 obS1 [] "BTCUSDT" 1000000).1.length = 1 ∧
      (on_price_update cfgS1 obS1
        (on_price_update cfgS1 obS1 [] "BTCUSDT" 1000000).2 "BTCUSDT" 1010000).1 = []) := by
  have hmain : ∀ (cfg : OpportunityDetectorCfg) (ob : Orderbook) (le : List (String × ℤ))
      (sym : String) (ts : ℤ) (T : TrianglePath) (tPrev : ℤ),
      assocGet le T.id = some tPrev →
      ts - tPrev < COOLDOWN_US →
      ∀ opp ∈ (on_price_update cfg ob le sym ts).1, opp.path.id ≠ T.id := by
    intro cfg ob le sym ts T tPrev hle hcool opp hmem
    unfold on_price_update at hmem
    by_cases hempty : (triangles_for_symbol cfg.triangles sym).isEmpty = true
    · rw [if_pos hempty] at hmem
      simp at hmem
    · rw [if_neg hempty] at hmem
      simp only [] at hmem
      rw [mem_sortDesc] at hmem
      exact (scan_triangles_cooldown cfg ob ts T.id tPrev hcool
        (triangles_for_symbol cfg.triangles sym) [] le hle (by simp)).1 opp hmem
  refine ⟨hmain, ?_, ?_⟩
  · have h1 : on_price_update cfgS1 obS1 [] "BTCUSDT" 1000000 =
        ([{ path := pathS1
            profit_pct := (60/59 * (999/1000) ^ 3 - 1) * 100
            gross_return := 60/59
            net_return := 60/59 * (999/1000) ^ 3
            prices := (50000, 59/1000, 3000)
            quantities := (1, 50, 10)
            max_trade_qty := 30000
            timestamp_us := 1000000 }], [("USDT-BTC-ETH", 1000000)]) := by
      unfold on_price_update scan_triangles
      simp +decide [triangles_for_symbol, TrianglePath.symbolsList, has_all_symbols,
        obGet, assocGet, assocSet, COOLDOWN_US, cfgS1, calcS1, pathS1, obS1,
        TrianglePath.leg1, TrianglePath.leg2, TrianglePath.leg3,
        bboBTCUSDT, bboETHBTC, bboETHUSDT,
        ArbitrageCalculator.calculate_opportunity,
        ArbitrageCalculator.calculate_gross_return, legStep,
        ArbitrageCalculator.calculate_max_quantity, ArbitrageCalculator.fee_multiplier,
        sortDesc, insertDesc, min_def, scan_triangles,
        Opportunity.mk.injEq, Prod.mk.injEq]
      norm_num
      simp [sortDesc, insertDesc]
    rw [h1]
    rfl
  · have h1 : on_price_update cfgS1 obS1 [] "BTCUSDT" 1000000 =
        ([{ path := pathS1
            profit_pct := (60/59 * (999/1000) ^ 3 - 1) * 100
            gross_return := 60/59
            net_return := 60/59 * (999/1000) ^ 3
            prices := (50000, 59/1000, 3000)
            quantities := (1, 50, 10)
            max_trade_qty := 30000
            timestamp_us := 1000000 }], [("USDT-BTC-ETH", 1000000)]) := by
      unfold on_price_update scan_triangles
      simp +decide [triangles_for_symbol, TrianglePath.symbolsList, has_all_symbols,
        obGet, assocGet, assocSet, COOLDOWN_US, cfgS1, calcS1, pathS1, obS1,
        TrianglePath.leg1, TrianglePath.leg2, TrianglePath.leg3,
        bboBTCUSDT, bboETHBTC, bboETHUSDT,
        ArbitrageCalculator.calculate_opportunity,
        ArbitrageCalculator.calculate_gross_return, legStep,
        ArbitrageCalculator.calculate_max_quantity, ArbitrageCalculator.fee_multiplier,
        sortDesc, insertDesc, min_def, scan_triangles,
        Opportunity.mk.injEq, Prod.mk.injEq]
      norm_num
      simp [sortDesc, insertDesc]
    rw [h1]
    have h2 : (on_price_update cfgS1 obS1 [("USDT-BTC-ETH", 1000000)] "BTCUSDT" 1010000).1 = [] := by
      unfold on_price_update scan_triangles
      simp +decide [triangles_for_symbol, TrianglePath.symbolsList, assocGet,
        COOLDOWN_US, cfgS1, pathS1, sortDesc]
    exact h2

/-- Witness for C9: with the S1 triangle's emission recorded at t = 1000000
microseconds, a tick 10 ms later is inside the cooldown window and emits
nothing for that triangle. -/
theorem c9_witness :
    assocGet [("USDT-BTC-ETH", (1000000 : ℤ))] pathS1.id = some 1000000 ∧
    (1010000 : ℤ) - 1000000 < COOLDOWN_US ∧
    ∀ opp ∈ (on_price_update cfgS1 obS1 [("USDT-BTC-ETH", 1000000)] "BTCUSDT" 1010000).1,
      opp.path.id ≠ pathS1.id :=
  ⟨rfl, by decide,
    c9_cooldown_suppression.1 cfgS1 obS1 [("USDT-BTC-ETH", 1000000)] "BTCUSDT" 1010000
      pathS1 1000000 rfl (by decide)⟩
